import Mathlib

/-!
Shallow embedding of the persistence core of the lecture Q&A application
(`src/lib/localStore.ts`, `src/lib/data.ts`, and the SQL schema in the README).

The local store keeps the whole document in a single JSON blob; every API call
loads it, mutates it, and saves it back.  We embed each operation as a pure
function `StoreShape → result × StoreShape` on the loaded document (the
load/save round trip is the identity on the document, so sequencing operations
corresponds to threading the state).  JavaScript numbers that hold reaction
counters are embedded as `Int` (they are integers in every code path that
writes them, but a loaded blob may carry arbitrary values, including negative
ones); experience points are embedded as `ℚ` so that `Math.floor` is the
genuine floor function.  Records (`profiles`) are embedded as association
lists with JavaScript-object semantics (at most one binding per key is
produced by the operations; lookup takes the first binding).
-/

/-- Reaction kinds, `keyof Reactions` in `src/types.ts` (`like` / `thanks`). -/
inductive RType where
  | like
  | thanks
deriving DecidableEq, Repr, Fintype

/-- `Reactions` record from `src/types.ts`: one counter per reaction kind. -/
structure Reactions where
  like : Int
  thanks : Int
deriving DecidableEq, Repr

/-- Read the counter of one reaction kind (`reactions[type]`). -/
def Reactions.get (r : Reactions) : RType → Int
  | .like => r.like
  | .thanks => r.thanks

/-- Write the counter of one reaction kind (`reactions[type] = v`). -/
def Reactions.set (r : Reactions) : RType → Int → Reactions
  | .like, v => { r with like := v }
  | .thanks, v => { r with thanks := v }

/-- `baseReactions()` in `localStore.ts`: `{ like: 0, thanks: 0 }`. -/
def baseReactions : Reactions := { like := 0, thanks := 0 }

/-- User roles (`src/types.ts`). -/
inductive Role where
  | teacher
  | student
  | ta
deriving DecidableEq, Repr

/-- Question status (`src/types.ts`): `open` or `resolved`. -/
inductive QStatus where
  | opened
  | resolved
deriving DecidableEq, Repr

/-- `Answer` entity (`src/types.ts`).  `reactions` is embedded as `Option`
because `localStore.ts` defends against its absence in loaded blobs with
`answer.reactions ?? baseReactions()`. -/
structure Answer where
  id : String
  questionId : String
  text : String
  author : String
  role : Role
  createdAt : String
  reactions : Option Reactions
  ownerId : Option String
deriving DecidableEq, Repr

/-- `Question` entity (`src/types.ts`); `reactions` and `answers` are
embedded as `Option` because `localStore.ts` treats them as possibly absent
(`question.reactions ?? baseReactions()`, `question.answers ?? []`). -/
structure Question where
  id : String
  roomId : String
  text : String
  status : QStatus
  createdAt : String
  ownerId : Option String
  author : Option String
  anonymous : Option Bool
  reactions : Option Reactions
  answers : Option (List Answer)
deriving DecidableEq, Repr

/-- `Room` entity (`src/types.ts`). -/
structure Room where
  id : String
  code : String
  name : String
  channel : Option String
  taKey : Option String
  createdAt : String
deriving DecidableEq, Repr

/-- `Profile` entity (`src/types.ts`): xp accumulator with derived level and
avatar tier.  `xp` is a JavaScript number, embedded as `ℚ`. -/
structure Profile where
  xp : ℚ
  level : Int
  avatarStage : Int
deriving DecidableEq, Repr

/-- The zero profile `{ xp: 0, level: 0, avatarStage: 0 }`. -/
def zeroProfile : Profile := { xp := 0, level := 0, avatarStage := 0 }

/-- Stored user row (`UserAccount & { password: string }` in `localStore.ts`). -/
structure UserRec where
  id : String
  name : String
  role : Role
  email : String
  password : String
  avatarUrl : Option String
deriving DecidableEq, Repr

/-- `UserAccount` as returned to callers (password field stripped). -/
structure UserAccount where
  id : String
  name : String
  role : Role
  email : String
  avatarUrl : Option String
deriving DecidableEq, Repr

/-- `{ password: _password, ...user }` destructuring: strip the password. -/
def UserRec.toAccount (u : UserRec) : UserAccount :=
  { id := u.id, name := u.name, role := u.role, email := u.email,
    avatarUrl := u.avatarUrl }

/-- Room-membership record (`localStore.ts` `memberships` entries). -/
structure RoomMember where
  userId : String
  roomId : String
  joinedAt : String
deriving DecidableEq, Repr

/-- A question-reaction tuple (`questionReactions` entries). -/
structure QReaction where
  questionId : String
  userId : String
  rtype : RType
deriving DecidableEq, Repr

/-- An answer-reaction tuple (`answerReactions` entries). -/
structure AReaction where
  answerId : String
  userId : String
  rtype : RType
deriving DecidableEq, Repr

/-- `StoreShape` from `localStore.ts`: the whole persisted document. -/
structure StoreShape where
  rooms : List Room
  questions : List Question
  profiles : List (String × Profile)
  users : List UserRec
  memberships : List RoomMember
  questionReactions : List QReaction
  answerReactions : List AReaction
  currentUserId : Option String
deriving DecidableEq, Repr

/-! ### Generic list helpers mirroring JavaScript array idioms -/

/-- Replace the first element satisfying `p` by its image under `f`
(mutation of the object returned by `Array.prototype.find`). -/
def replaceFirstP (p : α → Bool) (f : α → α) : List α → List α
  | [] => []
  | x :: xs => if p x then f x :: xs else x :: replaceFirstP p f xs

/-- Remove the first element satisfying `p`
(`arr.splice(arr.findIndex(p), 1)` when the index is non-negative). -/
def eraseFirstP (p : α → Bool) : List α → List α
  | [] => []
  | x :: xs => if p x then xs else x :: eraseFirstP p xs

/-- JavaScript-object lookup on an association list (`profiles[k]`). -/
def assocGet (ps : List (String × Profile)) (k : String) : Option Profile :=
  (ps.find? (fun kv => kv.1 = k)).map (·.2)

/-- JavaScript-object update on an association list (`profiles[k] = v`):
replace the binding when the key is present, append it otherwise. -/
def assocSet (ps : List (String × Profile)) (k : String) (v : Profile) :
    List (String × Profile) :=
  if ps.any (fun kv => kv.1 = k) then
    replaceFirstP (fun kv => kv.1 = k) (fun kv => (kv.1, v)) ps
  else
    ps ++ [(k, v)]

/-! ### Derivation functions (`localStore.ts` lines 75–82) -/

/-- Case normalization `email.toLowerCase()`: ASCII letters are lowered
character by character (structurally, so that concrete instances evaluate). -/
def lowerStr (s : String) : String := String.mk (s.data.map Char.toLower)

/-- `levelForXp = (xp) => Math.floor(xp)`. -/
def levelForXp (xp : ℚ) : Int := ⌊xp⌋

/-- `avatarForLevel`: tier 3 from level 12, tier 2 from 7, tier 1 from 3. -/
def avatarForLevel (level : Int) : Int :=
  if level ≥ 12 then 3
  else if level ≥ 7 then 2
  else if level ≥ 3 then 1
  else 0

/-! ### Local store operations (`localStore.ts`) -/

/-- The predicate matched by `addQuestionReaction`'s `findIndex` over
`questionReactions`. -/
def qrMatches (qid uid : String) (ty : RType) (e : QReaction) : Bool :=
  e.questionId = qid ∧ e.userId = uid ∧ e.rtype = ty

/-- The predicate matched by `addAnswerReaction`'s `findIndex` over
`answerReactions`. -/
def arMatches (aid uid : String) (ty : RType) (e : AReaction) : Bool :=
  e.answerId = aid ∧ e.userId = uid ∧ e.rtype = ty

/-- `localApi.addQuestionReaction(questionId, type, userId)`: toggle the
`(questionId, userId, type)` tuple and adjust the question's denormalized
counter (decrement floored at 0 on removal). -/
def addQuestionReaction (qid : String) (ty : RType) (uid : String)
    (s : StoreShape) : Option Question × StoreShape :=
  match s.questions.find? (fun q => q.id = qid) with
  | none => (none, s)
  | some target =>
    let r := target.reactions.getD baseReactions
    if s.questionReactions.any (qrMatches qid uid ty) then
      let target' := { target with
        reactions := some (r.set ty (max 0 (r.get ty - 1))) }
      (some target',
       { s with
         questions := replaceFirstP (fun q => q.id = qid) (fun _ => target')
           s.questions,
         questionReactions := eraseFirstP (qrMatches qid uid ty)
           s.questionReactions })
    else
      let target' := { target with reactions := some (r.set ty (r.get ty + 1)) }
      (some target',
       { s with
         questions := replaceFirstP (fun q => q.id = qid) (fun _ => target')
           s.questions,
         questionReactions := s.questionReactions ++
           [{ questionId := qid, userId := uid, rtype := ty }] })

/-- `localApi.addAnswerReaction(answerId, type, userId)`: find the first
question containing an answer with the given id, toggle the tuple in
`answerReactions` (presence was determined before the loop), and adjust that
answer's counter. -/
def addAnswerReaction (aid : String) (ty : RType) (uid : String)
    (s : StoreShape) : Option Answer × StoreShape :=
  let present := s.answerReactions.any (arMatches aid uid ty)
  match s.questions.find? (fun q => (q.answers.getD []).any (fun a => a.id = aid)) with
  | none => (none, s)
  | some q =>
    match (q.answers.getD []).find? (fun a => a.id = aid) with
    | none => (none, s)
    | some a =>
      let r := a.reactions.getD baseReactions
      let a' := { a with
        reactions := some (if present then r.set ty (max 0 (r.get ty - 1))
                           else r.set ty (r.get ty + 1)) }
      let q' := { q with
        answers := some (replaceFirstP (fun x => x.id = aid) (fun _ => a')
          (q.answers.getD [])) }
      (some a',
       { s with
         questions := replaceFirstP
           (fun qq => (qq.answers.getD []).any (fun x => x.id = aid))
           (fun _ => q') s.questions,
         answerReactions :=
           if present then eraseFirstP (arMatches aid uid ty) s.answerReactions
           else s.answerReactions ++
             [{ answerId := aid, userId := uid, rtype := ty }] })

/-- `localApi.deleteQuestion(questionId)`: remove the first question with the
id, drop all `questionReactions` for it, and — when the removed question had a
non-empty answer list — drop all `answerReactions` whose answer id belongs to
one of its answers. -/
def deleteQuestion (qid : String) (s : StoreShape) : Bool × StoreShape :=
  match s.questions.find? (fun q => q.id = qid) with
  | none => (false, s)
  | some removed =>
    let answerIds := (removed.answers.getD []).map (·.id)
    (true,
     { s with
       questions := eraseFirstP (fun q => q.id = qid) s.questions,
       questionReactions :=
         s.questionReactions.filter (fun e => e.questionId ≠ qid),
       answerReactions :=
         if answerIds.isEmpty then s.answerReactions
         else s.answerReactions.filter (fun e => ¬ answerIds.contains e.answerId) })

/-- `localApi.updateQuestionStatus(questionId, status)`: set the status of the
first question with the id; return `null` and leave the store untouched when
no question matches. -/
def updateQuestionStatus (qid : String) (st : QStatus) (s : StoreShape) :
    Option Question × StoreShape :=
  match s.questions.find? (fun q => q.id = qid) with
  | none => (none, s)
  | some target =>
    let target' := { target with status := st }
    (some target',
     { s with
       questions := replaceFirstP (fun q => q.id = qid) (fun _ => target')
         s.questions })

/-- Error shapes surfaced by the data layer.  The repository throws untyped
`Error(message)` values; we keep the message and tag the two distinguished
conditions of the spec taxonomy that the code produces. -/
inductive DataError where
  | notFound (msg : String)
  | permission (msg : String)
  | backend (msg : String)
deriving DecidableEq, Repr

/-- `localApi.createAnswer(questionId, text, author, role, ownerId)`.  The
fresh id and timestamp produced by `crypto.randomUUID()` / `new Date()` are
threaded as arguments.  Throws (here: `Except.error`) when the parent question
does not exist; otherwise appends the new answer to the parent's answer list. -/
def createAnswer (qid text author : String) (role : Role)
    (ownerId : Option String) (newId now : String) (s : StoreShape) :
    Except DataError (Answer × StoreShape) :=
  match s.questions.find? (fun q => q.id = qid) with
  | none => Except.error (DataError.notFound "質問が見つかりません。")
  | some target =>
    let answer : Answer :=
      { id := newId, questionId := qid, text := text, author := author,
        role := role, createdAt := now, reactions := some baseReactions,
        ownerId := ownerId }
    let target' := { target with
      answers := some ((target.answers.getD []) ++ [answer]) }
    Except.ok (answer,
      { s with
        questions := replaceFirstP (fun q => q.id = qid) (fun _ => target')
          s.questions })

/-- `localApi.addXp(amount)`: read-modify-write of the current user's profile;
xp is clamped at 0, level and avatar stage are recomputed from the clamped
value.  Without a current user the zero profile is returned and the store is
left untouched. -/
def addXp (amount : ℚ) (s : StoreShape) : Profile × StoreShape :=
  match s.currentUserId with
  | none => (zeroProfile, s)
  | some uid =>
    let p := (assocGet s.profiles uid).getD zeroProfile
    let xp := max 0 (p.xp + amount)
    let p' : Profile :=
      { xp := xp, level := levelForXp xp,
        avatarStage := avatarForLevel (levelForXp xp) }
    (p', { s with profiles := assocSet s.profiles uid p' })

/-- `localApi.registerUser(name, role, email, password, avatarUrl)`.  The id a
fresh registration would mint is threaded as `newId`.  When a stored user's
email matches case-insensitively, the call logs that user in (creating a zero
profile only when absent) and returns the stored account with the password
stripped — the supplied password is never consulted on this path. -/
def registerUser (name : String) (role : Role) (email password : String)
    (avatarUrl : Option String) (newId : String) (s : StoreShape) :
    UserAccount × StoreShape :=
  match s.users.find? (fun u => lowerStr u.email = lowerStr email) with
  | some existing =>
    let profiles :=
      if (assocGet s.profiles existing.id).isNone then
        assocSet s.profiles existing.id zeroProfile
      else s.profiles
    (existing.toAccount,
     { s with currentUserId := some existing.id, profiles := profiles })
  | none =>
    let u : UserRec :=
      { id := newId, name := name, role := role, email := email,
        password := password, avatarUrl := avatarUrl }
    (u.toAccount,
     { s with
       users := s.users ++ [u],
       currentUserId := some newId,
       profiles := assocSet s.profiles newId zeroProfile })

/-- The per-answer defaulting `listQuestions` applies (`answer.reactions ??
baseReactions()`). -/
def presentAnswer (a : Answer) : Answer :=
  { a with reactions := some (a.reactions.getD baseReactions) }

/-- The per-question defaulting `listQuestions` applies: `reactions` and
`answers` filled in with their defaults, and each answer's `reactions`
defaulted too. -/
def presentQuestion (q : Question) : Question :=
  { q with
    reactions := some (q.reactions.getD baseReactions),
    answers := some ((q.answers.getD []).map presentAnswer) }

/-- `localApi.listQuestions(roomId)`: the room's questions in stored order,
with `reactions` and `answers` (and each answer's `reactions`) defaulted. -/
def listQuestions (roomId : String) (s : StoreShape) : List Question :=
  (s.questions.filter (fun q => q.roomId = roomId)).map presentQuestion

/-- Lexicographic comparison of the code points of two strings — the order
in which ISO-8601 `createdAt` stamps compare chronologically (how the remote
backend orders `created_at` and how `mapQuestion` sorts answers with
`localeCompare`). -/
def strLeB : List Char → List Char → Bool
  | [], _ => true
  | _ :: _, [] => false
  | a :: as, b :: bs =>
    if a.val < b.val then true
    else if b.val < a.val then false
    else strLeB as bs

/-- `a` is no later than `b` as a creation stamp. -/
def dateLe (a b : String) : Bool := strLeB a.data b.data

/-! ### Sequencing helpers -/

/-- Fold a sequence of `addXp` calls over the store (each call of
`localApi.addXp` loads the document the previous call saved). -/
def applyAddXp (amounts : List ℚ) (s : StoreShape) : StoreShape :=
  amounts.foldl (fun st a => (addXp a st).2) s

/-- One reaction-toggle call, for stating properties of arbitrary sequences
of `addQuestionReaction` / `addAnswerReaction` operations. -/
inductive ReactOp where
  | question (qid : String) (ty : RType) (uid : String)
  | answer (aid : String) (ty : RType) (uid : String)
deriving DecidableEq, Repr

/-- Apply one reaction-toggle call to the store. -/
def applyReactOp (s : StoreShape) : ReactOp → StoreShape
  | .question qid ty uid => (addQuestionReaction qid ty uid s).2
  | .answer aid ty uid => (addAnswerReaction aid ty uid s).2

/-- Apply a sequence of reaction-toggle calls to the store. -/
def applyReactOps (ops : List ReactOp) (s : StoreShape) : StoreShape :=
  ops.foldl applyReactOp s

/-! ### Observables of the reaction subsystem -/

/-- The denormalized per-type counter of the question with the given id
(0 when the question is missing or its `reactions` field is absent). -/
def storedQReactCount (s : StoreShape) (qid : String) (ty : RType) : Int :=
  match s.questions.find? (fun q => q.id = qid) with
  | none => 0
  | some q => (q.reactions.getD baseReactions).get ty

/-- Whether the `(questionId, userId, type)` tuple is present in
`questionReactions`. -/
def hasQReaction (s : StoreShape) (qid uid : String) (ty : RType) : Bool :=
  s.questionReactions.any (qrMatches qid uid ty)

/-- Number of `(questionId, ·, type)` tuples stored for a question — the
authoritative count the reaction tuples define. -/
def qTupleCount (s : StoreShape) (qid : String) (ty : RType) : Nat :=
  (s.questionReactions.filter (fun e => e.questionId = qid ∧ e.rtype = ty)).length

/-- Number of `(answerId, ·, type)` tuples stored for an answer. -/
def aTupleCount (s : StoreShape) (aid : String) (ty : RType) : Nat :=
  (s.answerReactions.filter (fun e => e.answerId = aid ∧ e.rtype = ty)).length

/-- The users holding a reaction of the given type on a question. -/
def qReactUsers (s : StoreShape) (qid : String) (ty : RType) : List String :=
  (s.questionReactions.filter (fun e => e.questionId = qid ∧ e.rtype = ty)).map
    (·.userId)

/-- The users holding a reaction of the given type on an answer. -/
def aReactUsers (s : StoreShape) (aid : String) (ty : RType) : List String :=
  (s.answerReactions.filter (fun e => e.answerId = aid ∧ e.rtype = ty)).map
    (·.userId)

/-- Number of distinct users who reacted with the given type on a question. -/
def distinctUsersQ (s : StoreShape) (qid : String) (ty : RType) : Nat :=
  (qReactUsers s qid ty).dedup.length

/-- Number of distinct users who reacted with the given type on an answer. -/
def distinctUsersA (s : StoreShape) (aid : String) (ty : RType) : Nat :=
  (aReactUsers s aid ty).dedup.length

/-- Well-formedness of the stored document's identifiers: question ids are
pairwise distinct, and so are the ids of all answers across all questions.
Every state the store's own operations build from the initial empty document
satisfies this (`makeId` mints fresh UUIDs). -/
def WfIds (s : StoreShape) : Prop :=
  (s.questions.map (·.id)).Nodup ∧
  ((s.questions.map (fun q => (q.answers.getD []).map (·.id))).flatten).Nodup

/-- The reaction-uniqueness invariant of the claim: no duplicate
`(targetId, userId, type)` tuple in either reaction collection, and every
denormalized per-type counter is bounded by the number of distinct users who
reacted with that type on that target. -/
def ReactionInv (s : StoreShape) : Prop :=
  s.questionReactions.Nodup ∧
  s.answerReactions.Nodup ∧
  (∀ q ∈ s.questions, ∀ ty,
    (q.reactions.getD baseReactions).get ty ≤ (distinctUsersQ s q.id ty : Int)) ∧
  (∀ q ∈ s.questions, ∀ a ∈ q.answers.getD [], ∀ ty,
    (a.reactions.getD baseReactions).get ty ≤ (distinctUsersA s a.id ty : Int))

/-! ### The persisted-blob loader (`loadStore`, `localStore.ts` lines 25–67) -/

/-- The result of `JSON.parse` on a stored blob: every field individually
optional (`Partial<StoreShape>`), plus the legacy single-`profile` field of
the older document shape. -/
structure PartialStore where
  rooms : Option (List Room)
  questions : Option (List Question)
  profiles : Option (List (String × Profile))
  profile : Option Profile
  users : Option (List UserRec)
  memberships : Option (List RoomMember)
  questionReactions : Option (List QReaction)
  answerReactions : Option (List AReaction)
  currentUserId : Option String
deriving DecidableEq, Repr

/-- The empty-default document returned on first run or parse failure. -/
def emptyStore : StoreShape :=
  { rooms := [], questions := [], profiles := [], users := [],
    memberships := [], questionReactions := [], answerReactions := [],
    currentUserId := none }

/-- `loadStore()`: `none` models an absent blob (`localStorage` miss),
`some none` a blob on which `JSON.parse` throws, and `some (some p)` a
successfully parsed partial document.  Each field defaults independently via
`??`; a legacy single `profile` together with `currentUserId` is migrated
into the `profiles` record when that record has no entry for the user yet. -/
def loadStore (raw : Option (Option PartialStore)) : StoreShape :=
  match raw with
  | none => emptyStore
  | some none => emptyStore
  | some (some p) =>
    let profiles0 := p.profiles.getD []
    let profiles :=
      match p.profile, p.currentUserId with
      | some prof, some uid =>
        if (assocGet profiles0 uid).isNone then assocSet profiles0 uid prof
        else profiles0
      | _, _ => profiles0
    { rooms := p.rooms.getD [],
      questions := p.questions.getD [],
      profiles := profiles,
      users := p.users.getD [],
      memberships := p.memberships.getD [],
      questionReactions := p.questionReactions.getD [],
      answerReactions := p.answerReactions.getD [],
      currentUserId := p.currentUserId }

/-! ### Remote backend model (`data.ts` Supabase paths)

The remote database itself is not part of the repository's TypeScript
sources; its behavior is modelled from the SQL schema and row-level-security
policies in the repository README: primary-key ids, `answers.question_id
references questions(id) on delete cascade` (so inserting an answer whose
parent question is absent fails with a foreign-key violation, and deleting a
question cascades to its answers and to both reaction tables), and delete
policies that silently affect zero rows when the acting user is not the owner
and not a teacher/TA. -/

/-- A row of the `questions` table. -/
structure QRow where
  id : String
  room_id : String
  text : String
  status : QStatus
  created_at : String
  owner_id : Option String
  author : Option String
  anonymous : Option Bool
  reactions : Option Reactions
deriving DecidableEq, Repr

/-- A row of the `answers` table. -/
structure ARow where
  id : String
  question_id : String
  text : String
  author : String
  role : Role
  created_at : String
  owner_id : Option String
deriving DecidableEq, Repr

/-- A row of the `question_reactions` table. -/
structure QRRow where
  question_id : String
  user_id : String
  rtype : RType
deriving DecidableEq, Repr

/-- A row of the `answer_reactions` table. -/
structure ARRow where
  answer_id : String
  user_id : String
  rtype : RType
deriving DecidableEq, Repr

/-- The remote relational state reached through the Supabase client. -/
structure RemoteDB where
  questionsT : List QRow
  answersT : List ARow
  questionReactionsT : List QRRow
  answerReactionsT : List ARRow
deriving DecidableEq, Repr

/-- `dataApi.deleteQuestion` on the remote backend:
`delete().eq("id", qid).select("id")` returns the deleted rows; the row-level
policy (here the predicate `canDelete`, indexed by question id) decides which
rows the statement may touch.  Zero rows affected is turned into the thrown
permission error `削除権限がありません。`; otherwise the call returns `true`
and the database cascade removes the question's answers and all reactions on
the question and those answers. -/
def dataDeleteQuestion (canDelete : String → Bool) (qid : String)
    (db : RemoteDB) : Except DataError (Bool × RemoteDB) :=
  let affected := db.questionsT.filter (fun r => r.id = qid ∧ canDelete r.id)
  if affected.isEmpty then
    Except.error (DataError.permission "削除権限がありません。")
  else
    let deadAnswers := (db.answersT.filter (fun a => a.question_id = qid)).map (·.id)
    Except.ok (true,
      { db with
        questionsT := db.questionsT.filter (fun r => r.id ≠ qid),
        answersT := db.answersT.filter (fun a => a.question_id ≠ qid),
        questionReactionsT :=
          db.questionReactionsT.filter (fun e => e.question_id ≠ qid),
        answerReactionsT :=
          db.answerReactionsT.filter (fun e => ¬ deadAnswers.contains e.answer_id) })

/-- `dataApi.createAnswer` on the remote backend: a single insert into
`answers`.  When the parent question row is absent the insert violates the
`answers_question_id_fkey` foreign key and the client surfaces the backend
error message as a thrown error; on success the returned entity is the mapped
row with reaction counts reset to zero. -/
def dataCreateAnswer (qid text author : String) (role : Role)
    (ownerId : Option String) (newId now : String) (db : RemoteDB) :
    Except DataError (Answer × RemoteDB) :=
  if db.questionsT.any (fun r => r.id = qid) then
    let row : ARow :=
      { id := newId, question_id := qid, text := text, author := author,
        role := role, created_at := now, owner_id := ownerId }
    Except.ok
      ({ id := newId, questionId := qid, text := text, author := author,
         role := role, createdAt := now, reactions := some baseReactions,
         ownerId := ownerId },
       { db with answersT := db.answersT ++ [row] })
  else
    Except.error (DataError.backend
      "insert or update on table answers violates foreign key constraint answers_question_id_fkey")

/-! ### Concrete sample states used by witnesses and counterexamples -/

/-- A sample stored question. -/
def sampleQuestion : Question :=
  { id := "q1", roomId := "r1", text := "why is this O(n log n)?",
    status := QStatus.opened, createdAt := "2024-01-01T00:00:00Z",
    ownerId := some "u1", author := some "alice", anonymous := some false,
    reactions := some baseReactions, answers := some [] }

/-- A store holding just that question (used by the C9 witness). -/
def frameStore : StoreShape := { emptyStore with questions := [sampleQuestion] }

/-- A sample registered user row. -/
def sampleUser : UserRec :=
  { id := "u1", name := "Alice", role := Role.student,
    email := "Alice@example.com", password := "secret", avatarUrl := none }

/-- A store holding just that user (used by the C10 witness). -/
def dupEmailStore : StoreShape := { emptyStore with users := [sampleUser] }

/-- A store with a logged-in user owning some xp (used by the C4 witness). -/
def xpStore : StoreShape :=
  { emptyStore with
    currentUserId := some "u1",
    profiles := [("u1", { xp := 2, level := 2, avatarStage := 0 })] }

/-- A parsed legacy blob: no `profiles` record, but the old single-`profile`
field next to a `currentUserId` (C8 counterexample input). -/
def legacyBlob : PartialStore :=
  { rooms := none, questions := none, profiles := none,
    profile := some { xp := 1, level := 1, avatarStage := 0 },
    users := none, memberships := none, questionReactions := none,
    answerReactions := none, currentUserId := some "u7" }

/-- An incoherent store: the tuple `(q1, u2, like)` is present while the
question's denormalized `like` counter is 0 (representable because the local
blob is arbitrary JSON, though no sequence of store operations produces it). -/
def toggleCexStore : StoreShape :=
  { emptyStore with
    questions := [sampleQuestion],
    questionReactions :=
      [{ questionId := "q1", userId := "u2", rtype := RType.like }] }

/-- A coherent store: counter 1 and exactly one matching tuple. -/
def toggleOkStore : StoreShape :=
  { emptyStore with
    questions := [{ sampleQuestion with
      reactions := some { like := 1, thanks := 0 } }],
    questionReactions :=
      [{ questionId := "q1", userId := "u2", rtype := RType.like }] }

/-- A sample answer of `sampleQuestion`. -/
def sampleAnswer : Answer :=
  { id := "a1", questionId := "q1", text := "memoization", author := "bob",
    role := Role.ta, createdAt := "2024-01-02T00:00:00Z",
    reactions := some baseReactions, ownerId := some "u3" }

/-- A store with a question, its answer, and reactions on both (used by the
C3 witness). -/
def cascadeStore : StoreShape :=
  { emptyStore with
    questions := [{ sampleQuestion with answers := some [sampleAnswer] }],
    questionReactions :=
      [{ questionId := "q1", userId := "u2", rtype := RType.like }],
    answerReactions :=
      [{ answerId := "a1", userId := "u3", rtype := RType.thanks }] }

/-- A store whose stored `like` counter (5) disagrees with its reaction
tuples (none) and whose stored question order is oldest-first — both
representable in the persisted blob (C5 counterexample input). -/
def listCexStore : StoreShape :=
  { emptyStore with
    questions :=
      [{ sampleQuestion with
         id := "qA"
         createdAt := "2024-01-01T00:00:00Z"
         reactions := some { like := 5, thanks := 0 } },
       { sampleQuestion with
         id := "qB"
         createdAt := "2024-01-02T00:00:00Z" }] }

/-- A coherent, newest-first store (used by the C5 witness). -/
def listOkStore : StoreShape :=
  { emptyStore with
    questions :=
      [{ sampleQuestion with
         id := "qB"
         createdAt := "2024-01-02T00:00:00Z"
         reactions := some { like := 1, thanks := 0 }
         answers := some [{ sampleAnswer with
           reactions := some { like := 0, thanks := 1 } }] },
       { sampleQuestion with
         id := "qA"
         createdAt := "2024-01-01T00:00:00Z" }],
    questionReactions :=
      [{ questionId := "qB", userId := "u2", rtype := RType.like }],
    answerReactions :=
      [{ answerId := "a1", userId := "u3", rtype := RType.thanks }] }

/-- A sample remote `questions` row. -/
def qRow1 : QRow :=
  { id := "q1", room_id := "r1", text := "why is this O(n log n)?",
    status := QStatus.opened, created_at := "2024-01-01T00:00:00Z",
    owner_id := some "u1", author := some "alice", anonymous := some false,
    reactions := none }

/-- A sample remote `answers` row belonging to `qRow1`. -/
def aRow1 : ARow :=
  { id := "a1", question_id := "q1", text := "memoization", author := "bob",
    role := Role.ta, created_at := "2024-01-02T00:00:00Z",
    owner_id := some "u3" }

/-- A sample remote database (used by the C6 and C7 witnesses). -/
def remoteDb : RemoteDB :=
  { questionsT := [qRow1],
    answersT := [aRow1],
    questionReactionsT :=
      [{ question_id := "q1", user_id := "u2", rtype := RType.like }],
    answerReactionsT :=
      [{ answer_id := "a1", user_id := "u3", rtype := RType.thanks }] }

/-! ### Generic lemmas about the list helpers -/

theorem replaceFirstP_cons (p : α → Bool) (f : α → α) (x : α) (xs : List α) :
    replaceFirstP p f (x :: xs) =
      if p x then f x :: xs else x :: replaceFirstP p f xs := rfl

theorem eraseFirstP_cons (p : α → Bool) (x : α) (xs : List α) :
    eraseFirstP p (x :: xs) = if p x then xs else x :: eraseFirstP p xs := rfl

/-- `replaceFirstP` rewrites the list at the index `find?` hits. -/
theorem find?_eq_some_replaceFirstP (p : α → Bool) (f : α → α) :
    ∀ (l : List α) (a : α), l.find? p = some a →
      ∃ i : Fin l.length, l.get i = a ∧ replaceFirstP p f l = l.set i (f a)
  | [], a, h => by simp at h
  | x :: xs, a, h => by
    by_cases hx : p x
    · refine ⟨⟨0, by simp⟩, ?_, ?_⟩
      · simpa [List.find?, hx] using h
      · have hax : a = x := by simpa [List.find?, hx] using h.symm
        simp [replaceFirstP, hx, hax]
    · have h' : xs.find? p = some a := by
        simpa [List.find?, hx] using h
      obtain ⟨i, hget, hrepl⟩ := find?_eq_some_replaceFirstP p f xs a h'
      exact ⟨⟨i.1 + 1, by simpa using Nat.succ_lt_succ i.2⟩,
        by simpa using hget, by simp [replaceFirstP, hx, hrepl]⟩

/-- `eraseFirstP` removes the element `find?` hits. -/
theorem find?_eq_some_eraseFirstP (p : α → Bool) :
    ∀ (l : List α) (a : α), l.find? p = some a →
      ∃ i : Fin l.length, l.get i = a ∧ eraseFirstP p l = l.eraseIdx i
  | [], a, h => by simp at h
  | x :: xs, a, h => by
    by_cases hx : p x
    · refine ⟨⟨0, by simp⟩, ?_, ?_⟩
      · simpa [List.find?, hx] using h
      · simp [eraseFirstP, hx]
    · have h' : xs.find? p = some a := by
        simpa [List.find?, hx] using h
      obtain ⟨i, hget, hrepl⟩ := find?_eq_some_eraseFirstP p xs a h'
      exact ⟨⟨i.1 + 1, by simpa using Nat.succ_lt_succ i.2⟩,
        by simpa using hget, by simp [eraseFirstP, hx, hrepl, List.eraseIdx]⟩

theorem replaceFirstP_of_find?_eq_none (p : α → Bool) (f : α → α) :
    ∀ (l : List α), l.find? p = none → replaceFirstP p f l = l
  | [], _ => rfl
  | x :: xs, h => by
    have hx : ¬ p x := by
      intro hx
      simp [List.find?, hx] at h
    have h' : xs.find? p = none := by
      simpa [List.find?, hx] using h
    simp [replaceFirstP, hx, replaceFirstP_of_find?_eq_none p f xs h']

theorem eraseFirstP_of_find?_eq_none (p : α → Bool) :
    ∀ (l : List α), l.find? p = none → eraseFirstP p l = l
  | [], _ => rfl
  | x :: xs, h => by
    have hx : ¬ p x := by
      intro hx
      simp [List.find?, hx] at h
    have h' : xs.find? p = none := by
      simpa [List.find?, hx] using h
    simp [eraseFirstP, hx, eraseFirstP_of_find?_eq_none p xs h']

/-- Mapping through `replaceFirstP` is invisible to any projection the
replacement preserves. -/
theorem map_replaceFirstP (p : α → Bool) (f : α → α) (g : α → β) :
    ∀ l : List α, (∀ a, p a = true → g (f a) = g a) →
      (replaceFirstP p f l).map g = l.map g
  | [], _ => rfl
  | x :: xs, h => by
    by_cases hx : p x
    · simp [replaceFirstP, hx, h x hx]
    · simp [replaceFirstP, hx, map_replaceFirstP p f g xs h]

theorem mem_replaceFirstP (p : α → Bool) (f : α → α) :
    ∀ (l : List α) (x : α), x ∈ replaceFirstP p f l →
      x ∈ l ∨ ∃ a, l.find? p = some a ∧ x = f a
  | [], x, h => by simp [replaceFirstP] at h
  | y :: ys, x, h => by
    by_cases hy : p y
    · rcases (by simpa [replaceFirstP, hy] using h : x = f y ∨ x ∈ ys) with h1 | h1
      · exact Or.inr ⟨y, by simp [List.find?, hy], h1⟩
      · exact Or.inl (List.mem_cons_of_mem _ h1)
    · rcases (by simpa [replaceFirstP, hy] using h :
          x = y ∨ x ∈ replaceFirstP p f ys) with h1 | h1
      · exact Or.inl (h1 ▸ List.mem_cons_self _ _)
      · rcases mem_replaceFirstP p f ys x h1 with h2 | ⟨a, ha, hx⟩
        · exact Or.inl (List.mem_cons_of_mem _ h2)
        · exact Or.inr ⟨a, by simp [List.find?, hy, ha], hx⟩

theorem eraseFirstP_sublist (p : α → Bool) :
    ∀ l : List α, List.Sublist (eraseFirstP p l) l
  | [] => List.Sublist.refl _
  | x :: xs => by
    by_cases hx : p x
    · simpa [eraseFirstP, hx] using List.sublist_cons_self x xs
    · simpa [eraseFirstP, hx] using (eraseFirstP_sublist p xs).cons₂ x

/-- Removing the first `p`-element drops exactly one from any count of a
predicate that covers `p`. -/
theorem countP_eraseFirstP_of_covers (p r : α → Bool)
    (hcov : ∀ e, p e = true → r e = true) :
    ∀ l : List α, l.any p = true →
      (eraseFirstP p l).countP r + 1 = l.countP r
  | [], h => by simp at h
  | x :: xs, h => by
    by_cases hx : p x
    · simp [eraseFirstP, hx, List.countP_cons, hcov x hx]
    · have h' : xs.any p = true := by simpa [hx] using h
      have := countP_eraseFirstP_of_covers p r hcov xs h'
      rw [eraseFirstP_cons, if_neg (by simp [hx]), List.countP_cons,
        List.countP_cons]
      omega

/-- Removing the first `p`-element does not change counts of predicates
disjoint from `p`. -/
theorem countP_eraseFirstP_of_disjoint (p r : α → Bool)
    (hdis : ∀ e, p e = true → r e = false) :
    ∀ l : List α, (eraseFirstP p l).countP r = l.countP r
  | [] => by simp [eraseFirstP]
  | x :: xs => by
    by_cases hx : p x
    · simp [eraseFirstP, hx, List.countP_cons, hdis x hx]
    · rw [eraseFirstP_cons, if_neg (by simp [hx]), List.countP_cons,
        List.countP_cons, countP_eraseFirstP_of_disjoint p r hdis xs]

/-- After removing the first `p`-element from a list carrying at most one
`p`-element, none is left. -/
theorem any_eraseFirstP_of_countP_le_one (p : α → Bool) (l : List α)
    (hle : l.countP p ≤ 1) : (eraseFirstP p l).any p = false := by
  by_cases h : l.any p = true
  · have := countP_eraseFirstP_of_covers p p (fun _ h => h) l h
    have h0 : (eraseFirstP p l).countP p = 0 := by omega
    by_contra hx
    have hx' : (eraseFirstP p l).any p = true := by
      revert hx
      cases (eraseFirstP p l).any p <;> simp
    rw [List.any_eq_true] at hx'
    obtain ⟨a, ha, hpa⟩ := hx'
    have : 0 < (eraseFirstP p l).countP p := List.countP_pos_iff.mpr ⟨a, ha, hpa⟩
    omega
  · have h' : l.any p = false := by
      revert h
      cases l.any p <;> simp
    rw [List.any_eq_false] at h'
    have : l.find? p = none := List.find?_eq_none.mpr (fun a ha => by
      have := h' a ha
      simp [this])
    rw [eraseFirstP_of_find?_eq_none p l this]
    rw [List.any_eq_false]
    intro a ha
    have := h' a ha
    simp [this]

/-- `replaceFirstP` leaves `find?` pointing at the replacement whenever the
replacement still satisfies the predicate. -/
theorem find?_replaceFirstP_self (p : α → Bool) (f : α → α) :
    ∀ (l : List α) (a : α), l.find? p = some a → p (f a) = true →
      (replaceFirstP p f l).find? p = some (f a)
  | [], a, h, _ => by simp at h
  | x :: xs, a, h, hf => by
    by_cases hx : p x
    · have hax : a = x := by simpa [List.find?, hx] using h.symm
      subst hax
      simp [replaceFirstP, hx, List.find?, hf]
    · have h' : xs.find? p = some a := by
        simpa [List.find?, hx] using h
      simp [replaceFirstP, hx, List.find?,
        find?_replaceFirstP_self p f xs a h' hf]

/-- Writing a profile under a key makes that key read back the new value. -/
theorem assocGet_assocSet_self (ps : List (String × Profile)) (k : String)
    (v : Profile) : assocGet (assocSet ps k v) k = some v := by
  unfold assocSet
  by_cases hany : ps.any (fun kv => kv.1 = k) = true
  · rw [if_pos hany]
    rw [List.any_eq_true] at hany
    obtain ⟨a, ha, hpa⟩ := hany
    obtain ⟨b, hb⟩ : ∃ b, ps.find? (fun kv => kv.1 = k) = some b := by
      have : (ps.find? (fun kv => kv.1 = k)).isSome := by
        rw [List.find?_isSome]
        exact ⟨a, ha, hpa⟩
      exact Option.isSome_iff_exists.mp this
    have hbk : b.1 = k := by
      have := List.find?_some hb
      simpa using this
    have := find?_replaceFirstP_self (fun kv => kv.1 = k)
      (fun kv => (kv.1, v)) ps b hb (by simpa using hbk)
    simp [assocGet, this]
  · rw [if_neg hany]
    have hnone : ps.find? (fun kv => kv.1 = k) = none := by
      rw [List.find?_eq_none]
      intro a ha
      rw [List.any_eq_true] at hany
      push_neg at hany
      simpa using hany a ha
    simp [assocGet, List.find?_append, hnone]

/-- `addXp` never changes who is logged in. -/
theorem addXp_currentUserId (amount : ℚ) (s : StoreShape) :
    (addXp amount s).2.currentUserId = s.currentUserId := by
  unfold addXp
  cases h : s.currentUserId <;> simp [h]

/-- After at least one `addXp` call with a user logged in, the stored profile
of that user has non-negative xp. -/
theorem applyAddXp_xp_nonneg :
    ∀ (amounts : List ℚ) (s : StoreShape) (uid : String),
      s.currentUserId = some uid → amounts ≠ [] →
      0 ≤ ((assocGet (applyAddXp amounts s).profiles uid).getD zeroProfile).xp
  | [], _, _, _, hne => absurd rfl hne
  | [a], s, uid, hcur, _ => by
    simp only [applyAddXp, List.foldl_cons, List.foldl_nil]
    simp [addXp, hcur, assocGet_assocSet_self]
  | a :: b :: rest, s, uid, hcur, _ => by
    have hstep : applyAddXp (a :: b :: rest) s =
        applyAddXp (b :: rest) (addXp a s).2 := rfl
    rw [hstep]
    exact applyAddXp_xp_nonneg (b :: rest) (addXp a s).2 uid
      (by rw [addXp_currentUserId, hcur]) (by simp)

/-- Claim C4: `addXp(amount)` clamps xp at a floor of 0 (`xp = max 0 (x +
amount)` for the current profile's xp `x`), recomputes `level` as the floor
of the clamped xp and `avatarStage` as the tier of that level (3 from level
12, 2 from 7, 1 from 3, else 0), stores the profile back under the current
user, and — for any non-empty sequence of `addXp` calls — never leaves a
negative xp. -/
theorem addXp_floor_level_consistent (s : StoreShape) (uid : String)
    (amount : ℚ) (amounts : List ℚ) (hcur : s.currentUserId = some uid)
    (hne : amounts ≠ []) :
    (addXp amount s).1.xp =
      max 0 (((assocGet s.profiles uid).getD zeroProfile).xp + amount) ∧
    (addXp amount s).1.level = ⌊(addXp amount s).1.xp⌋ ∧
    (addXp amount s).1.avatarStage =
      (if 12 ≤ (addXp amount s).1.level then 3
       else if 7 ≤ (addXp amount s).1.level then 2
       else if 3 ≤ (addXp amount s).1.level then 1
       else 0) ∧
    assocGet (addXp amount s).2.profiles uid = some (addXp amount s).1 ∧
    0 ≤ (addXp amount s).1.xp ∧
    0 ≤ ((assocGet (applyAddXp amounts s).profiles uid).getD zeroProfile).xp := by
  refine ⟨?_, ?_, ?_, ?_, ?_, applyAddXp_xp_nonneg amounts s uid hcur hne⟩
  · simp [addXp, hcur]
  · simp [addXp, hcur, levelForXp]
  · simp only [addXp, hcur]
    simp [avatarForLevel, ge_iff_le]
  · simp [addXp, hcur, assocGet_assocSet_self]
  · simp [addXp, hcur]

/-- Witness for C4 at a concrete store: xp 2 plus −5 clamps to 0 with level 0
and avatar stage 0, and a sequence ending in a large deduction still leaves
non-negative xp. -/
theorem addXp_floor_level_consistent_witness :
    (addXp (-5) xpStore).1.xp =
      max 0 (((assocGet xpStore.profiles "u1").getD zeroProfile).xp + (-5)) ∧
    (addXp (-5) xpStore).1.level = ⌊(addXp (-5) xpStore).1.xp⌋ ∧
    (addXp (-5) xpStore).1.avatarStage =
      (if 12 ≤ (addXp (-5) xpStore).1.level then 3
       else if 7 ≤ (addXp (-5) xpStore).1.level then 2
       else if 3 ≤ (addXp (-5) xpStore).1.level then 1
       else 0) ∧
    assocGet (addXp (-5) xpStore).2.profiles "u1" = some (addXp (-5) xpStore).1 ∧
    0 ≤ (addXp (-5) xpStore).1.xp ∧
    0 ≤ ((assocGet (applyAddXp [3, -100] xpStore).profiles "u1").getD
      zeroProfile).xp :=
  addXp_floor_level_consistent xpStore "u1" (-5) [3, -100] rfl (by decide)

/-- Claim C9: `updateQuestionStatus` only rewrites the status of the first
question carrying the id — every other field of that question, every other
question (the list is rewritten at exactly one index), and every other
collection of the store (the `{ s with … }` form keeps them) are untouched;
when no question carries the id the call returns `null` and the whole store
is unchanged. -/
theorem updateQuestionStatus_frame (s : StoreShape) (qid : String)
    (st : QStatus) :
    (s.questions.find? (fun q => q.id = qid) = none →
      updateQuestionStatus qid st s = (none, s)) ∧
    (∀ q, s.questions.find? (fun q' => q'.id = qid) = some q →
      q.id = qid ∧
      (updateQuestionStatus qid st s).1 = some { q with status := st } ∧
      ∃ i : Fin s.questions.length,
        s.questions.get i = q ∧
        (updateQuestionStatus qid st s).2 =
          { s with questions := s.questions.set i { q with status := st } }) := by
  constructor
  · intro h
    simp [updateQuestionStatus, h]
  · intro q hq
    have hid : q.id = qid := by
      have := List.find?_some hq
      simpa using this
    refine ⟨hid, by simp [updateQuestionStatus, hq], ?_⟩
    obtain ⟨i, hget, hrepl⟩ := find?_eq_some_replaceFirstP
      (fun q' => q'.id = qid) (fun _ => { q with status := st })
      s.questions q hq
    exact ⟨i, hget, by simp [updateQuestionStatus, hq, hrepl]⟩

/-- Witness for C9: resolving the sample question rewrites exactly its
status, and an unknown id leaves the store untouched. -/
theorem updateQuestionStatus_frame_witness :
    (updateQuestionStatus "q1" QStatus.resolved frameStore).1 =
      some { sampleQuestion with status := QStatus.resolved } ∧
    updateQuestionStatus "zzz" QStatus.resolved frameStore =
      (none, frameStore) := by
  have h1 := (updateQuestionStatus_frame frameStore "q1" QStatus.resolved).2
    sampleQuestion (by decide)
  have h2 := (updateQuestionStatus_frame frameStore "zzz" QStatus.resolved).1
    (by decide)
  exact ⟨h1.2.1, h2⟩

/-- Claim C10: registering with an email that matches a stored user
case-insensitively behaves as login — no user is created, the stored users
are untouched, the matching user becomes the current user, a zero profile is
created for them only when none exists, the stored account minus its
password is returned, and the whole result is independent of the supplied
password. -/
theorem registerUser_duplicate_email (s : StoreShape)
    (name : String) (role : Role) (email password : String)
    (avatarUrl : Option String) (newId : String) (ex : UserRec)
    (hfind : s.users.find? (fun u => lowerStr u.email = lowerStr email) =
      some ex) :
    (registerUser name role email password avatarUrl newId s).1 =
      ex.toAccount ∧
    (registerUser name role email password avatarUrl newId s).2.users =
      s.users ∧
    (registerUser name role email password avatarUrl newId s).2.currentUserId =
      some ex.id ∧
    ((assocGet s.profiles ex.id).isSome →
      (registerUser name role email password avatarUrl newId s).2.profiles =
        s.profiles) ∧
    ((assocGet s.profiles ex.id).isNone →
      (registerUser name role email password avatarUrl newId s).2.profiles =
        assocSet s.profiles ex.id zeroProfile ∧
      assocGet (registerUser name role email password avatarUrl newId
        s).2.profiles ex.id = some zeroProfile) ∧
    (registerUser name role email password avatarUrl newId s).2.rooms =
      s.rooms ∧
    (registerUser name role email password avatarUrl newId s).2.questions =
      s.questions ∧
    (registerUser name role email password avatarUrl newId s).2.memberships =
      s.memberships ∧
    (registerUser name role email password avatarUrl newId
      s).2.questionReactions = s.questionReactions ∧
    (registerUser name role email password avatarUrl newId
      s).2.answerReactions = s.answerReactions ∧
    (∀ password2, registerUser name role email password2 avatarUrl newId s =
      registerUser name role email password avatarUrl newId s) := by
  refine ⟨?_, ?_, ?_, ?_, ?_, ?_, ?_, ?_, ?_, ?_, ?_⟩
  · simp [registerUser, hfind]
  · by_cases hp : (assocGet s.profiles ex.id).isNone <;>
      simp [registerUser, hfind, hp]
  · by_cases hp : (assocGet s.profiles ex.id).isNone <;>
      simp [registerUser, hfind, hp]
  · intro hsome
    have hp : ¬ (assocGet s.profiles ex.id).isNone = true := by
      rcases Option.isSome_iff_exists.mp hsome with ⟨v, hv⟩
      simp [hv]
    simp [registerUser, hfind, hp]
  · intro hnone
    constructor
    · simp [registerUser, hfind, hnone]
    · simp [registerUser, hfind, hnone, assocGet_assocSet_self]
  · by_cases hp : (assocGet s.profiles ex.id).isNone <;>
      simp [registerUser, hfind, hp]
  · by_cases hp : (assocGet s.profiles ex.id).isNone <;>
      simp [registerUser, hfind, hp]
  · by_cases hp : (assocGet s.profiles ex.id).isNone <;>
      simp [registerUser, hfind, hp]
  · by_cases hp : (assocGet s.profiles ex.id).isNone <;>
      simp [registerUser, hfind, hp]
  · by_cases hp : (assocGet s.profiles ex.id).isNone <;>
      simp [registerUser, hfind, hp]
  · intro password2
    simp [registerUser, hfind]

/-- Witness for C10: registering again with the same email in different case
and a wrong password logs the stored user in without touching the user list. -/
theorem registerUser_duplicate_email_witness :
    (registerUser "Mallory" Role.teacher "ALICE@EXAMPLE.COM" "wrongpw"
      none "u-new" dupEmailStore).1 = sampleUser.toAccount ∧
    (registerUser "Mallory" Role.teacher "ALICE@EXAMPLE.COM" "wrongpw"
      none "u-new" dupEmailStore).2.users = dupEmailStore.users ∧
    (registerUser "Mallory" Role.teacher "ALICE@EXAMPLE.COM" "wrongpw"
      none "u-new" dupEmailStore).2.currentUserId = some "u1" := by
  have h := registerUser_duplicate_email dupEmailStore "Mallory" Role.teacher
    "ALICE@EXAMPLE.COM" "wrongpw" none "u-new" sampleUser (by decide)
  exact ⟨h.1, h.2.1, h.2.2.1⟩

/-- Counterexample to C8 as stated: in a parse-able blob whose `profiles`
field is missing, that field does not default to the empty collection when
the legacy single-`profile` field and `currentUserId` are present — the
loader migrates the legacy profile into the record instead. -/
theorem loadStore_missing_profiles_not_empty :
    legacyBlob.profiles = none ∧
    (loadStore (some (some legacyBlob))).profiles =
      [("u7", { xp := 1, level := 1, avatarStage := 0 })] ∧
    (loadStore (some (some legacyBlob))).profiles ≠ [] := by
  refine ⟨rfl, by decide, by decide⟩

/-- Claim C8 (amended): loading an absent or unparseable blob yields the
empty-default document and never raises; in a parse-able blob every missing
field independently defaults to its empty collection, except that a missing
`profiles` record is populated with the single legacy `profile` entry when
the blob carries both the legacy `profile` field and a `currentUserId`. -/
theorem loadStore_resilient (p : PartialStore) :
    loadStore none = emptyStore ∧
    loadStore (some none) = emptyStore ∧
    (p.rooms = none → (loadStore (some (some p))).rooms = []) ∧
    (p.questions = none → (loadStore (some (some p))).questions = []) ∧
    (p.users = none → (loadStore (some (some p))).users = []) ∧
    (p.memberships = none → (loadStore (some (some p))).memberships = []) ∧
    (p.questionReactions = none →
      (loadStore (some (some p))).questionReactions = []) ∧
    (p.answerReactions = none →
      (loadStore (some (some p))).answerReactions = []) ∧
    (p.profiles = none → p.profile = none →
      (loadStore (some (some p))).profiles = []) ∧
    (p.profiles = none → p.currentUserId = none →
      (loadStore (some (some p))).profiles = []) ∧
    (∀ prof uid, p.profiles = none → p.profile = some prof →
      p.currentUserId = some uid →
      (loadStore (some (some p))).profiles = [(uid, prof)]) ∧
    (loadStore (some (some p))).currentUserId = p.currentUserId := by
  refine ⟨rfl, rfl, ?_, ?_, ?_, ?_, ?_, ?_, ?_, ?_, ?_, ?_⟩
  · intro h
    simp [loadStore, h]
  · intro h
    simp [loadStore, h]
  · intro h
    simp [loadStore, h]
  · intro h
    simp [loadStore, h]
  · intro h
    simp [loadStore, h]
  · intro h
    simp [loadStore, h]
  · intro h1 h2
    simp [loadStore, h1, h2]
  · intro h1 h2
    cases hp : p.profile <;> simp [loadStore, h1, h2, hp]
  · intro prof uid h1 h2 h3
    simp [loadStore, h1, h2, h3, assocGet, assocSet]
  · cases hp : p.profile <;> cases hc : p.currentUserId <;>
      cases hq : p.profiles <;>
      simp [loadStore, hp, hc, hq] <;>
      split <;> simp

/-- Witness for C8 (amended) on the legacy blob: defaults fire field by
field and the legacy profile is migrated. -/
theorem loadStore_resilient_witness :
    loadStore none = emptyStore ∧
    (loadStore (some (some legacyBlob))).rooms = [] ∧
    (loadStore (some (some legacyBlob))).questions = [] ∧
    (loadStore (some (some legacyBlob))).profiles =
      [("u7", { xp := 1, level := 1, avatarStage := 0 })] ∧
    (loadStore (some (some legacyBlob))).currentUserId = some "u7" := by
  have h := loadStore_resilient legacyBlob
  exact ⟨h.1, h.2.2.1 rfl, h.2.2.2.1 rfl,
    h.2.2.2.2.2.2.2.2.2.2.1 { xp := 1, level := 1, avatarStage := 0 } "u7"
      rfl rfl rfl,
    h.2.2.2.2.2.2.2.2.2.2.2⟩

/-- Reading back the counter just written. -/
theorem reactions_get_set_self (r : Reactions) (ty : RType) (v : Int) :
    (Reactions.set r ty v).get ty = v := by
  cases ty <;> rfl

/-- The literal tuple matches its own predicate. -/
theorem qrMatches_self (qid uid : String) (ty : RType) :
    qrMatches qid uid ty { questionId := qid, userId := uid, rtype := ty } =
      true := by
  simp [qrMatches]

/-- `any` is false exactly when the count is zero. -/
theorem any_eq_false_iff_countP_eq_zero (p : α → Bool) (l : List α) :
    l.any p = false ↔ l.countP p = 0 := by
  constructor
  · intro h
    rw [List.countP_eq_zero]
    rw [List.any_eq_false] at h
    intro a ha
    simpa using h a ha
  · intro h
    rw [List.any_eq_false]
    rw [List.countP_eq_zero] at h
    intro a ha
    simpa using h a ha

/-- Counterexample to C1 as stated: on a store where the question exists but
the bookkeeping is incoherent (tuple present, counter already 0), toggling
`(q1, like, u2)` twice raises the stored counter from 0 to 1 instead of
restoring it. -/
theorem addQuestionReaction_twice_changes_count :
    storedQReactCount toggleCexStore "q1" RType.like = 0 ∧
    hasQReaction toggleCexStore "q1" "u2" RType.like = true ∧
    storedQReactCount
      ((addQuestionReaction "q1" RType.like "u2"
        ((addQuestionReaction "q1" RType.like "u2" toggleCexStore).2)).2)
      "q1" RType.like = 1 := by
  refine ⟨by decide, by decide, by decide⟩

/-- Claim C1 (amended): toggling the same `(questionId, type, userId)` twice
restores both the stored per-type counter and the presence of the reaction
tuple, for every store in which the question exists and the bookkeeping for
that tuple is coherent — the tuple occurs at most once, the counter is
non-negative, and the counter is at least 1 whenever the tuple is present
(every store reachable by the store's own operations from the empty document
satisfies these). -/
theorem addQuestionReaction_toggle_involution (s : StoreShape)
    (qid uid : String) (ty : RType)
    (hq : (s.questions.find? (fun q => q.id = qid)).isSome)
    (hdup : s.questionReactions.countP (qrMatches qid uid ty) ≤ 1)
    (hnn : 0 ≤ storedQReactCount s qid ty)
    (hpres : hasQReaction s qid uid ty = true →
      1 ≤ storedQReactCount s qid ty) :
    storedQReactCount
      ((addQuestionReaction qid ty uid
        ((addQuestionReaction qid ty uid s).2)).2) qid ty =
      storedQReactCount s qid ty ∧
    hasQReaction
      ((addQuestionReaction qid ty uid
        ((addQuestionReaction qid ty uid s).2)).2) qid uid ty =
      hasQReaction s qid uid ty := by
  obtain ⟨target, hfind⟩ := Option.isSome_iff_exists.mp hq
  have hid : target.id = qid := by
    have := List.find?_some hfind
    simpa using this
  have hcount : storedQReactCount s qid ty =
      (target.reactions.getD baseReactions).get ty := by
    simp [storedQReactCount, hfind]
  set s1 := (addQuestionReaction qid ty uid s).2 with hs1eq
  by_cases hpr : s.questionReactions.any (qrMatches qid uid ty) = true
  · -- tuple present: first call removes it, second re-adds it
    have hc1 : 1 ≤ (target.reactions.getD baseReactions).get ty := by
      rw [← hcount]
      exact hpres (by simpa [hasQReaction] using hpr)
    have hs1 : s1 =
        { s with
          questions := replaceFirstP (fun q => q.id = qid)
            (fun _ => { target with
              reactions := some ((target.reactions.getD baseReactions).set ty
                (max 0 ((target.reactions.getD baseReactions).get ty - 1))) })
            s.questions,
          questionReactions := eraseFirstP (qrMatches qid uid ty)
            s.questionReactions } := by
      rw [hs1eq]
      simp [addQuestionReaction, hfind, hpr]
    have hfind1 : s1.questions.find?
        (fun q => q.id = qid) = some { target with
          reactions := some ((target.reactions.getD baseReactions).set ty
            (max 0 ((target.reactions.getD baseReactions).get ty - 1))) } := by
      rw [hs1]
      exact find?_replaceFirstP_self _ _ _ _ hfind (by simp [hid])
    have hany1 : s1.questionReactions.any (qrMatches qid uid ty) = false := by
      rw [hs1]
      exact any_eraseFirstP_of_countP_le_one _ _ hdup
    have hs2 : (addQuestionReaction qid ty uid s1).2 =
        { s1 with
          questions := replaceFirstP (fun q => q.id = qid)
            (fun _ => { target with
              reactions := some
                (((target.reactions.getD baseReactions).set ty
                  (max 0 ((target.reactions.getD baseReactions).get ty -
                    1))).set ty
                  ((((target.reactions.getD baseReactions).set ty
                    (max 0 ((target.reactions.getD baseReactions).get ty -
                      1))).get ty) + 1)) })
            s1.questions,
          questionReactions := s1.questionReactions ++
            [{ questionId := qid, userId := uid, rtype := ty }] } := by
      simp [addQuestionReaction, hfind1, hany1]
    constructor
    · have hfind2 : (addQuestionReaction qid ty uid
          s1).2.questions.find?
          (fun q => q.id = qid) = some { target with
            reactions := some
              (((target.reactions.getD baseReactions).set ty
                (max 0 ((target.reactions.getD baseReactions).get ty -
                  1))).set ty
                ((((target.reactions.getD baseReactions).set ty
                  (max 0 ((target.reactions.getD baseReactions).get ty -
                    1))).get ty) + 1)) } := by
        rw [hs2]
        exact find?_replaceFirstP_self _ _ _ _ hfind1 (by simp [hid])
      rw [hcount, storedQReactCount]
      simp only [hfind2, Option.getD_some, reactions_get_set_self]
      rw [max_eq_right (by omega)]
      omega
    · rw [hs2]
      simp [hasQReaction, qrMatches_self, hpr]
  · -- tuple absent: first call adds it, second removes it
    have hpr' : s.questionReactions.any (qrMatches qid uid ty) = false := by
      revert hpr
      cases s.questionReactions.any (qrMatches qid uid ty) <;> simp
    have hzero : s.questionReactions.countP (qrMatches qid uid ty) = 0 :=
      (any_eq_false_iff_countP_eq_zero _ _).mp hpr'
    have hc0 : 0 ≤ (target.reactions.getD baseReactions).get ty := by
      rw [← hcount]
      exact hnn
    have hs1 : s1 =
        { s with
          questions := replaceFirstP (fun q => q.id = qid)
            (fun _ => { target with
              reactions := some ((target.reactions.getD baseReactions).set ty
                ((target.reactions.getD baseReactions).get ty + 1)) })
            s.questions,
          questionReactions := s.questionReactions ++
            [{ questionId := qid, userId := uid, rtype := ty }] } := by
      rw [hs1eq]
      simp [addQuestionReaction, hfind, hpr']
    have hfind1 : s1.questions.find?
        (fun q => q.id = qid) = some { target with
          reactions := some ((target.reactions.getD baseReactions).set ty
            ((target.reactions.getD baseReactions).get ty + 1)) } := by
      rw [hs1]
      exact find?_replaceFirstP_self _ _ _ _ hfind (by simp [hid])
    have hany1 : s1.questionReactions.any (qrMatches qid uid ty) = true := by
      rw [hs1]
      simp [qrMatches_self]
    have hcount1 : s1.questionReactions.countP (qrMatches qid uid ty) = 1 := by
      rw [hs1]
      simp [List.countP_append, hzero, List.countP_cons, qrMatches_self]
    have hs2 : (addQuestionReaction qid ty uid s1).2 =
        { s1 with
          questions := replaceFirstP (fun q => q.id = qid)
            (fun _ => { target with
              reactions := some
                (((target.reactions.getD baseReactions).set ty
                  ((target.reactions.getD baseReactions).get ty + 1)).set ty
                  (max 0
                    ((((target.reactions.getD baseReactions).set ty
                      ((target.reactions.getD baseReactions).get ty +
                        1)).get ty) - 1))) })
            s1.questions,
          questionReactions := eraseFirstP (qrMatches qid uid ty)
            s1.questionReactions } := by
      simp [addQuestionReaction, hfind1, hany1]
    constructor
    · have hfind2 : (addQuestionReaction qid ty uid
          s1).2.questions.find?
          (fun q => q.id = qid) = some { target with
            reactions := some
              (((target.reactions.getD baseReactions).set ty
                ((target.reactions.getD baseReactions).get ty + 1)).set ty
                (max 0
                  ((((target.reactions.getD baseReactions).set ty
                    ((target.reactions.getD baseReactions).get ty +
                      1)).get ty) - 1))) } := by
        rw [hs2]
        exact find?_replaceFirstP_self _ _ _ _ hfind1 (by simp [hid])
      rw [hcount, storedQReactCount]
      simp only [hfind2, Option.getD_some, reactions_get_set_self]
      rw [max_eq_right (by omega)]
      omega
    · have herase : (eraseFirstP (qrMatches qid uid ty)
          s1.questionReactions).any (qrMatches qid uid ty) = false :=
        any_eraseFirstP_of_countP_le_one _ _ (by omega)
      rw [hs2]
      simp [hasQReaction, hpr', herase]

/-- Witness for C1 (amended) on the coherent sample store: toggling twice
restores counter 1 and tuple presence. -/
theorem addQuestionReaction_toggle_involution_witness :
    storedQReactCount
      ((addQuestionReaction "q1" RType.like "u2"
        ((addQuestionReaction "q1" RType.like "u2" toggleOkStore).2)).2)
      "q1" RType.like =
      storedQReactCount toggleOkStore "q1" RType.like ∧
    hasQReaction
      ((addQuestionReaction "q1" RType.like "u2"
        ((addQuestionReaction "q1" RType.like "u2" toggleOkStore).2)).2)
      "q1" "u2" RType.like =
      hasQReaction toggleOkStore "q1" "u2" RType.like :=
  addQuestionReaction_toggle_involution toggleOkStore "q1" "u2" RType.like
    (by decide) (by decide) (by decide) (fun _ => by decide)

/-- A list whose image under `f` has no duplicates carries at most one
element with any given `f`-value. -/
theorem countP_map_nodup_le_one (f : α → β) [DecidableEq β] :
    ∀ l : List α, (l.map f).Nodup → ∀ c : β,
      l.countP (fun x => f x = c) ≤ 1
  | [], _, _ => by simp
  | x :: xs, h, c => by
    rw [List.map_cons, List.nodup_cons] at h
    obtain ⟨hnotin, hnd⟩ := h
    rw [List.countP_cons]
    by_cases hx : f x = c
    · have hz : xs.countP (fun y => f y = c) = 0 := by
        rw [List.countP_eq_zero]
        intro a ha hfa
        have hfa' : f a = c := by simpa using hfa
        exact hnotin (by
          rw [hx, ← hfa']
          exact List.mem_map_of_mem f ha)
      simp [hx, hz]
    · have := countP_map_nodup_le_one f xs hnd c
      simp only [hx, decide_eq_true_eq, if_false]
      simpa using this

/-- After erasing the first `p`-element from a list carrying at most one,
every remaining element fails `p`. -/
theorem mem_eraseFirstP_not_pred (p : α → Bool) :
    ∀ l : List α, l.countP p ≤ 1 → ∀ x ∈ eraseFirstP p l, p x = false
  | [], _, x, hx => by simp [eraseFirstP] at hx
  | y :: ys, hle, x, hx => by
    by_cases hy : p y
    · have hz : ys.countP p = 0 := by
        rw [List.countP_cons] at hle
        simp only [hy, if_true] at hle
        omega
      rw [eraseFirstP_cons, if_pos hy] at hx
      rw [List.countP_eq_zero] at hz
      have := hz x hx
      revert this
      cases p x <;> simp
    · rw [eraseFirstP_cons, if_neg (by simp [hy])] at hx
      rcases List.mem_cons.mp hx with h1 | h1
      · subst h1
        revert hy
        cases p x <;> simp
      · have hle' : ys.countP p ≤ 1 := by
          rw [List.countP_cons] at hle
          omega
        exact mem_eraseFirstP_not_pred p ys hle' x h1

/-- In a list with at most one `p`-element, every `p`-element is the one
`find?` returns. -/
theorem eq_find?_of_countP_le_one (p : α → Bool) :
    ∀ l : List α, l.countP p ≤ 1 → ∀ a, l.find? p = some a →
      ∀ x ∈ l, p x = true → x = a
  | [], _, a, ha, x, hx, _ => by simp at hx
  | y :: ys, hle, a, ha, x, hx, hpx => by
    by_cases hy : p y
    · have hay : a = y := by simpa [List.find?, hy] using ha.symm
      subst hay
      rcases List.mem_cons.mp hx with h1 | h1
      · exact h1
      · exfalso
        have hz : ys.countP p = 0 := by
          rw [List.countP_cons] at hle
          simp only [hy, if_true] at hle
          omega
        rw [List.countP_eq_zero] at hz
        have := hz x h1
        rw [hpx] at this
        simp at this
    · have ha' : ys.find? p = some a := by
        simpa [List.find?, hy] using ha
      rcases List.mem_cons.mp hx with h1 | h1
      · exfalso
        subst h1
        rw [hpx] at hy
        simp at hy
      · have hle' : ys.countP p ≤ 1 := by
          rw [List.countP_cons] at hle
          omega
        exact eq_find?_of_countP_le_one p ys hle' a ha' x h1 hpx

/-- Claim C3: when the question exists (and the store is well formed:
question ids are unique and every nested answer points at its parent),
`deleteQuestion` returns true and removes the question, all its answers,
every `questionReactions` entry for it, and every `answerReactions` entry
for any of its answers — nothing referencing the deleted ids remains. -/
theorem deleteQuestion_cascade (s : StoreShape) (qid : String)
    (hex : (s.questions.find? (fun q => q.id = qid)).isSome)
    (hnodup : (s.questions.map (fun q => q.id)).Nodup)
    (hlink : ∀ q ∈ s.questions, ∀ a ∈ q.answers.getD [],
      a.questionId = q.id) :
    (deleteQuestion qid s).1 = true ∧
    (∀ q' ∈ (deleteQuestion qid s).2.questions, q'.id ≠ qid) ∧
    (∀ q' ∈ (deleteQuestion qid s).2.questions,
      ∀ a ∈ q'.answers.getD [], a.questionId ≠ qid) ∧
    (∀ e ∈ (deleteQuestion qid s).2.questionReactions,
      e.questionId ≠ qid) ∧
    (∀ q ∈ s.questions, q.id = qid → ∀ a ∈ q.answers.getD [],
      ∀ e ∈ (deleteQuestion qid s).2.answerReactions, e.answerId ≠ a.id) := by
  obtain ⟨removed, hfind⟩ := Option.isSome_iff_exists.mp hex
  have hcle : s.questions.countP (fun q => q.id = qid) ≤ 1 :=
    countP_map_nodup_le_one (fun q => q.id) s.questions hnodup qid
  have hdel : deleteQuestion qid s =
      (true,
       { s with
         questions := eraseFirstP (fun q => q.id = qid) s.questions,
         questionReactions :=
           s.questionReactions.filter (fun e => e.questionId ≠ qid),
         answerReactions :=
           if ((removed.answers.getD []).map (fun a => a.id)).isEmpty then
             s.answerReactions
           else s.answerReactions.filter (fun e =>
             ¬ ((removed.answers.getD []).map (fun a => a.id)).contains
               e.answerId) }) := by
    simp [deleteQuestion, hfind]
  have hqmem : ∀ q' ∈ (deleteQuestion qid s).2.questions, q'.id ≠ qid := by
    intro q' hq'
    rw [hdel] at hq'
    have := mem_eraseFirstP_not_pred (fun q => q.id = qid) s.questions
      hcle q' hq'
    simpa using this
  refine ⟨by rw [hdel], hqmem, ?_, ?_, ?_⟩
  · intro q' hq' a ha
    have hmem : q' ∈ s.questions := by
      rw [hdel] at hq'
      exact (eraseFirstP_sublist (fun q => q.id = qid)
        s.questions).subset hq'
    rw [hlink q' hmem a ha]
    exact hqmem q' hq'
  · intro e he
    rw [hdel] at he
    have := List.of_mem_filter he
    simpa using this
  · intro q hq hqid a ha e he
    have hqr : q = removed :=
      eq_find?_of_countP_le_one (fun q => q.id = qid) s.questions hcle
        removed hfind q hq (by simp [hqid])
    subst hqr
    rw [hdel] at he
    have hne : ¬ ((q.answers.getD []).map (fun a => a.id)).isEmpty = true := by
      cases hqa : (q.answers.getD []).map (fun a => a.id) with
      | nil => simp [hqa] at ha ⊢; exact absurd (congrArg (a.id ∈ ·) hqa) (by
          simp
          exact ⟨a, ha, rfl⟩)
      | cons b bs => simp
    rw [if_neg hne] at he
    have := List.of_mem_filter he
    have hnc : ¬ (((q.answers.getD []).map (fun a => a.id)).contains
        e.answerId = true) := by simpa using this
    intro heq
    exact hnc (List.elem_iff.mpr (by
      rw [heq]
      exact List.mem_map_of_mem (fun a => a.id) ha))

/-- Witness for C3: deleting the sample question removes it, its answer,
and the reactions on both. -/
theorem deleteQuestion_cascade_witness :
    (deleteQuestion "q1" cascadeStore).1 = true ∧
    (∀ q' ∈ (deleteQuestion "q1" cascadeStore).2.questions, q'.id ≠ "q1") ∧
    (∀ q' ∈ (deleteQuestion "q1" cascadeStore).2.questions,
      ∀ a ∈ q'.answers.getD [], a.questionId ≠ "q1") ∧
    (∀ e ∈ (deleteQuestion "q1" cascadeStore).2.questionReactions,
      e.questionId ≠ "q1") ∧
    (∀ q ∈ cascadeStore.questions, q.id = "q1" → ∀ a ∈ q.answers.getD [],
      ∀ e ∈ (deleteQuestion "q1" cascadeStore).2.answerReactions,
      e.answerId ≠ a.id) :=
  deleteQuestion_cascade cascadeStore "q1" (by decide) (by decide)
    (by decide)

/-- `presentQuestion` preserves id, room, creation stamp, and the effective
reaction counters, and presents the defaulted answers. -/
theorem presentQuestion_fields (q : Question) :
    (presentQuestion q).id = q.id ∧
    (presentQuestion q).roomId = q.roomId ∧
    (presentQuestion q).createdAt = q.createdAt ∧
    (presentQuestion q).reactions.getD baseReactions =
      q.reactions.getD baseReactions ∧
    (presentQuestion q).answers.getD [] =
      (q.answers.getD []).map presentAnswer :=
  ⟨rfl, rfl, rfl, rfl, rfl⟩

/-- Counterexample to C5 as stated: `localApi.listQuestions` serves the
stored denormalized counter (here 5, against 0 reaction tuples) and the
stored order (here oldest-first), so on this representable store the output
is neither recounted from the reaction store nor newest-first. -/
theorem listQuestions_serves_stored_counter_and_order :
    ((listQuestions "r1" listCexStore).map (fun q =>
      ((q.reactions.getD baseReactions).get RType.like,
       qTupleCount listCexStore q.id RType.like))) = [(5, 0), (0, 0)] ∧
    ((listQuestions "r1" listCexStore).map (fun q => q.createdAt)) =
      ["2024-01-01T00:00:00Z", "2024-01-02T00:00:00Z"] ∧
    ¬ ((listQuestions "r1" listCexStore).Pairwise (fun a b =>
      dateLe b.createdAt a.createdAt = true)) := by
  refine ⟨by decide, by decide, by decide⟩

/-- Claim C5 (amended): `listQuestions(roomId)` returns exactly the room's
questions (each presented with its fields defaulted) in stored order, with
reaction counts taken from the stored denormalized counters; whenever the
store is coherent — counters equal the reaction-tuple counts — and ordered
(questions newest-first, answers oldest-first, as `createQuestion`'s
prepend and `createAnswer`'s append maintain), the output is newest-first
with counts equal to the authoritative tuple counts and answers ascending. -/
theorem listQuestions_spec (s : StoreShape) (roomId : String)
    (hsorted : s.questions.Pairwise (fun a b =>
      dateLe b.createdAt a.createdAt = true))
    (hanssorted : ∀ q ∈ s.questions, (q.answers.getD []).Pairwise
      (fun a b => dateLe a.createdAt b.createdAt = true))
    (hqcoh : ∀ q ∈ s.questions, ∀ ty,
      (q.reactions.getD baseReactions).get ty = (qTupleCount s q.id ty : Int))
    (hacoh : ∀ q ∈ s.questions, ∀ a ∈ q.answers.getD [], ∀ ty,
      (a.reactions.getD baseReactions).get ty =
        (aTupleCount s a.id ty : Int)) :
    (∀ q', q' ∈ listQuestions roomId s ↔
      ∃ q ∈ s.questions, q.roomId = roomId ∧ q' = presentQuestion q) ∧
    (∀ q' ∈ listQuestions roomId s, q'.roomId = roomId) ∧
    (listQuestions roomId s).Pairwise (fun a b =>
      dateLe b.createdAt a.createdAt = true) ∧
    (∀ q' ∈ listQuestions roomId s, ∀ ty,
      (q'.reactions.getD baseReactions).get ty =
        (qTupleCount s q'.id ty : Int)) ∧
    (∀ q' ∈ listQuestions roomId s, (q'.answers.getD []).Pairwise
      (fun a b => dateLe a.createdAt b.createdAt = true)) ∧
    (∀ q' ∈ listQuestions roomId s, ∀ a ∈ q'.answers.getD [], ∀ ty,
      (a.reactions.getD baseReactions).get ty =
        (aTupleCount s a.id ty : Int)) := by
  have hmem : ∀ q', q' ∈ listQuestions roomId s ↔
      ∃ q ∈ s.questions, q.roomId = roomId ∧ q' = presentQuestion q := by
    intro q'
    constructor
    · intro h
      rw [listQuestions] at h
      obtain ⟨q, hq, rfl⟩ := List.mem_map.mp h
      have hf := List.mem_filter.mp hq
      exact ⟨q, hf.1, by simpa using hf.2, rfl⟩
    · rintro ⟨q, hq, hroom, rfl⟩
      rw [listQuestions]
      exact List.mem_map_of_mem _ (List.mem_filter.mpr ⟨hq, by simp [hroom]⟩)
  refine ⟨hmem, ?_, ?_, ?_, ?_, ?_⟩
  · intro q' hq'
    obtain ⟨q, _, hroom, rfl⟩ := (hmem q').mp hq'
    simpa [presentQuestion] using hroom
  · rw [listQuestions, List.pairwise_map]
    refine List.Pairwise.imp ?_
      (List.Pairwise.sublist (List.filter_sublist s.questions) hsorted)
    intro a b h
    simpa [presentQuestion] using h
  · intro q' hq' ty
    obtain ⟨q, hq, _, rfl⟩ := (hmem q').mp hq'
    rw [(presentQuestion_fields q).2.2.2.1, (presentQuestion_fields q).1]
    exact hqcoh q hq ty
  · intro q' hq'
    obtain ⟨q, hq, _, rfl⟩ := (hmem q').mp hq'
    rw [(presentQuestion_fields q).2.2.2.2, List.pairwise_map]
    refine List.Pairwise.imp ?_ (hanssorted q hq)
    intro a b h
    simpa [presentAnswer] using h
  · intro q' hq' a ha ty
    obtain ⟨q, hq, _, rfl⟩ := (hmem q').mp hq'
    rw [(presentQuestion_fields q).2.2.2.2] at ha
    obtain ⟨a0, ha0, rfl⟩ := List.mem_map.mp ha
    have h1 : (presentAnswer a0).reactions.getD baseReactions =
        a0.reactions.getD baseReactions := rfl
    have h2 : (presentAnswer a0).id = a0.id := rfl
    rw [h1, h2]
    exact hacoh q hq a0 ha0 ty

/-- Witness for C5 (amended) on the coherent newest-first store. -/
theorem listQuestions_spec_witness :
    ((listQuestions "r1" listOkStore).map (fun q => q.id)) = ["qB", "qA"] ∧
    (listQuestions "r1" listOkStore).Pairwise (fun a b =>
      dateLe b.createdAt a.createdAt = true) ∧
    (∀ q' ∈ listQuestions "r1" listOkStore, ∀ ty,
      (q'.reactions.getD baseReactions).get ty =
        (qTupleCount listOkStore q'.id ty : Int)) ∧
    (∀ q' ∈ listQuestions "r1" listOkStore, ∀ a ∈ q'.answers.getD [], ∀ ty,
      (a.reactions.getD baseReactions).get ty =
        (aTupleCount listOkStore a.id ty : Int)) := by
  have h := listQuestions_spec listOkStore "r1" (by decide)
    (by decide) (by decide) (by decide)
  exact ⟨by decide, h.2.2.1, h.2.2.2.1, h.2.2.2.2.2⟩

/-- Counterexample to C6 as stated: the local implementation, reached by the
facade when the local backend is selected, answers a zero-rows-affected
delete (absent question) with a silent `false` — no `PermissionError`. -/
theorem deleteQuestion_missing_returns_false :
    deleteQuestion "q1" emptyStore = (false, emptyStore) := by decide

/-- Claim C6 (amended): the remote implementation turns zero rows affected
into the thrown permission error and otherwise returns true with the
database cascade applied; the local implementation instead returns `false`
(store unchanged) when the question is absent and cascades and returns true
when it exists. -/
theorem deleteQuestion_error_policy (s : StoreShape) (db : RemoteDB)
    (canDelete : String → Bool) (qid : String) :
    (s.questions.find? (fun q => q.id = qid) = none →
      deleteQuestion qid s = (false, s)) ∧
    ((s.questions.find? (fun q => q.id = qid)).isSome →
      (deleteQuestion qid s).1 = true) ∧
    ((db.questionsT.filter (fun r => r.id = qid ∧ canDelete r.id)).isEmpty →
      dataDeleteQuestion canDelete qid db =
        Except.error (DataError.permission "削除権限がありません。")) ∧
    (¬ (db.questionsT.filter (fun r =>
        r.id = qid ∧ canDelete r.id)).isEmpty →
      ∃ db', dataDeleteQuestion canDelete qid db = Except.ok (true, db') ∧
        (∀ r ∈ db'.questionsT, r.id ≠ qid) ∧
        (∀ a ∈ db'.answersT, a.question_id ≠ qid) ∧
        (∀ e ∈ db'.questionReactionsT, e.question_id ≠ qid) ∧
        (∀ a ∈ db.answersT, a.question_id = qid →
          ∀ e ∈ db'.answerReactionsT, e.answer_id ≠ a.id)) := by
  refine ⟨?_, ?_, ?_, ?_⟩
  · intro h
    simp [deleteQuestion, h]
  · intro h
    obtain ⟨removed, hfind⟩ := Option.isSome_iff_exists.mp h
    simp [deleteQuestion, hfind]
  · intro h
    simp only [dataDeleteQuestion]
    rw [if_pos h]
  · intro h
    refine ⟨{ db with
        questionsT := db.questionsT.filter (fun r => r.id ≠ qid),
        answersT := db.answersT.filter (fun a => a.question_id ≠ qid),
        questionReactionsT :=
          db.questionReactionsT.filter (fun e => e.question_id ≠ qid),
        answerReactionsT := db.answerReactionsT.filter (fun e =>
          ¬ ((db.answersT.filter (fun a => a.question_id = qid)).map
            (fun a => a.id)).contains e.answer_id) }, ?_, ?_, ?_, ?_, ?_⟩
    · simp only [dataDeleteQuestion]
      rw [if_neg h]
    · intro r hr
      have := List.of_mem_filter hr
      simpa using this
    · intro a ha
      have := List.of_mem_filter ha
      simpa using this
    · intro e he
      have := List.of_mem_filter he
      simpa using this
    · intro a ha haq e he heq
      have := List.of_mem_filter he
      have hnc : ¬ (((db.answersT.filter (fun a => a.question_id = qid)).map
          (fun a => a.id)).contains e.answer_id = true) := by
        simpa using this
      have hmemf : a ∈ db.answersT.filter (fun x => x.question_id = qid) :=
        List.mem_filter.mpr ⟨ha, by exact decide_eq_true haq⟩
      exact hnc (List.elem_iff.mpr (by
        rw [heq]
        exact List.mem_map_of_mem (fun x => x.id) hmemf))

/-- Witness for C6 (amended): a denied remote delete errors, an allowed one
cascades, and a local delete of a missing question returns false. -/
theorem deleteQuestion_error_policy_witness :
    deleteQuestion "zzz" frameStore = (false, frameStore) ∧
    dataDeleteQuestion (fun _ => false) "q1" remoteDb =
      Except.error (DataError.permission "削除権限がありません。") ∧
    (∃ db', dataDeleteQuestion (fun _ => true) "q1" remoteDb =
        Except.ok (true, db') ∧
      (∀ r ∈ db'.questionsT, r.id ≠ "q1") ∧
      (∀ a ∈ db'.answersT, a.question_id ≠ "q1") ∧
      (∀ e ∈ db'.questionReactionsT, e.question_id ≠ "q1") ∧
      (∀ a ∈ remoteDb.answersT, a.question_id = "q1" →
        ∀ e ∈ db'.answerReactionsT, e.answer_id ≠ a.id)) := by
  refine ⟨?_, ?_, ?_⟩
  · exact (deleteQuestion_error_policy frameStore remoteDb (fun _ => false)
      "zzz").1 (by decide)
  · exact (deleteQuestion_error_policy frameStore remoteDb (fun _ => false)
      "q1").2.2.1 (by decide)
  · exact (deleteQuestion_error_policy frameStore remoteDb (fun _ => true)
      "q1").2.2.2 (by decide)

/-- Claim C7: with an absent parent question, `createAnswer` raises in both
implementations — the local store throws its not-found error, and the remote
insert fails on the `answers_question_id_fkey` foreign key (surfaced as a
thrown backend error); with the parent present, both return the new answer
with zero reaction counts, appended to the parent's answer list (local) or
inserted into the answers table (remote). -/
theorem createAnswer_requires_parent (s : StoreShape) (db : RemoteDB)
    (qid text author : String) (role : Role) (ownerId : Option String)
    (newId now : String) :
    (s.questions.find? (fun q => q.id = qid) = none →
      createAnswer qid text author role ownerId newId now s =
        Except.error (DataError.notFound "質問が見つかりません。")) ∧
    (∀ target, s.questions.find? (fun q => q.id = qid) = some target →
      createAnswer qid text author role ownerId newId now s =
        Except.ok
          ({ id := newId, questionId := qid, text := text, author := author,
             role := role, createdAt := now, reactions := some baseReactions,
             ownerId := ownerId },
           { s with
             questions := replaceFirstP (fun q => q.id = qid)
               (fun _ => { target with
                 answers := some ((target.answers.getD []) ++
                   [{ id := newId, questionId := qid, text := text,
                      author := author, role := role, createdAt := now,
                      reactions := some baseReactions,
                      ownerId := ownerId }]) })
               s.questions }) ∧
      (∀ s', createAnswer qid text author role ownerId newId now s =
        Except.ok
          ({ id := newId, questionId := qid, text := text, author := author,
             role := role, createdAt := now, reactions := some baseReactions,
             ownerId := ownerId }, s') →
        s'.questions.find? (fun q => q.id = qid) = some { target with
          answers := some ((target.answers.getD []) ++
            [{ id := newId, questionId := qid, text := text,
               author := author, role := role, createdAt := now,
               reactions := some baseReactions, ownerId := ownerId }]) })) ∧
    (db.questionsT.any (fun r => r.id = qid) = false →
      dataCreateAnswer qid text author role ownerId newId now db =
        Except.error (DataError.backend
          "insert or update on table answers violates foreign key constraint answers_question_id_fkey")) ∧
    (db.questionsT.any (fun r => r.id = qid) = true →
      dataCreateAnswer qid text author role ownerId newId now db =
        Except.ok
          ({ id := newId, questionId := qid, text := text, author := author,
             role := role, createdAt := now, reactions := some baseReactions,
             ownerId := ownerId },
           { db with answersT := db.answersT ++
             [{ id := newId, question_id := qid, text := text,
                author := author, role := role, created_at := now,
                owner_id := ownerId }] })) := by
  refine ⟨?_, ?_, ?_, ?_⟩
  · intro h
    simp [createAnswer, h]
  · intro target hfind
    have hid : target.id = qid := by
      have := List.find?_some hfind
      simpa using this
    constructor
    · simp [createAnswer, hfind]
    · intro s' hs'
      have h0 : createAnswer qid text author role ownerId newId now s =
          Except.ok
            ({ id := newId, questionId := qid, text := text,
               author := author, role := role, createdAt := now,
               reactions := some baseReactions, ownerId := ownerId },
             { s with
               questions := replaceFirstP (fun q => q.id = qid)
                 (fun _ => { target with
                   answers := some ((target.answers.getD []) ++
                     [{ id := newId, questionId := qid, text := text,
                        author := author, role := role, createdAt := now,
                        reactions := some baseReactions,
                        ownerId := ownerId }]) })
                 s.questions }) := by
        simp [createAnswer, hfind]
      rw [h0] at hs'
      injection hs' with hpair
      injection hpair with hfst hsnd
      rw [← hsnd]
      exact find?_replaceFirstP_self _ _ _ _ hfind (by simp [hid])
  · intro h
    simp only [dataCreateAnswer]
    rw [if_neg (by simp [h])]
  · intro h
    simp only [dataCreateAnswer]
    rw [if_pos h]

/-- Witness for C7: answering a missing question errors in both backends;
answering the sample question appends the new answer with zero counts. -/
theorem createAnswer_requires_parent_witness :
    createAnswer "zzz" "memo" "bob" Role.student none "a9"
      "2024-01-03T00:00:00Z" frameStore =
      Except.error (DataError.notFound "質問が見つかりません。") ∧
    createAnswer "q1" "memo" "bob" Role.student none "a9"
      "2024-01-03T00:00:00Z" frameStore =
      Except.ok
        ({ id := "a9", questionId := "q1", text := "memo", author := "bob",
           role := Role.student, createdAt := "2024-01-03T00:00:00Z",
           reactions := some baseReactions, ownerId := none },
         { frameStore with
           questions := replaceFirstP (fun q => q.id = "q1")
             (fun _ => { sampleQuestion with
               answers := some ((sampleQuestion.answers.getD []) ++
                 [{ id := "a9", questionId := "q1", text := "memo",
                    author := "bob", role := Role.student,
                    createdAt := "2024-01-03T00:00:00Z",
                    reactions := some baseReactions, ownerId := none }]) })
             frameStore.questions }) ∧
    dataCreateAnswer "zzz" "memo" "bob" Role.student none "a9"
      "2024-01-03T00:00:00Z" remoteDb =
      Except.error (DataError.backend
        "insert or update on table answers violates foreign key constraint answers_question_id_fkey") ∧
    dataCreateAnswer "q1" "memo" "bob" Role.student none "a9"
      "2024-01-03T00:00:00Z" remoteDb =
      Except.ok
        ({ id := "a9", questionId := "q1", text := "memo", author := "bob",
           role := Role.student, createdAt := "2024-01-03T00:00:00Z",
           reactions := some baseReactions, ownerId := none },
         { remoteDb with answersT := remoteDb.answersT ++
           [{ id := "a9", question_id := "q1", text := "memo",
              author := "bob", role := Role.student,
              created_at := "2024-01-03T00:00:00Z", owner_id := none }] }) := by
  refine ⟨?_, ?_, ?_, ?_⟩
  · exact (createAnswer_requires_parent frameStore remoteDb "zzz" "memo"
      "bob" Role.student none "a9" "2024-01-03T00:00:00Z").1 (by decide)
  · exact ((createAnswer_requires_parent frameStore remoteDb "q1" "memo"
      "bob" Role.student none "a9" "2024-01-03T00:00:00Z").2.1 sampleQuestion
      (by decide)).1
  · exact (createAnswer_requires_parent frameStore remoteDb "zzz" "memo"
      "bob" Role.student none "a9" "2024-01-03T00:00:00Z").2.2.1 (by decide)
  · exact (createAnswer_requires_parent frameStore remoteDb "q1" "memo"
      "bob" Role.student none "a9" "2024-01-03T00:00:00Z").2.2.2 (by decide)

/-- `replaceFirstP` rewrites the found element only: with at most one
`p`-element, every member of the result either fails `p` or is the
replacement of the element `find?` returned. -/
theorem mem_replaceFirstP_cases (p : α → Bool) (f : α → α) :
    ∀ (l : List α) (a : α), l.find? p = some a → l.countP p ≤ 1 →
      ∀ x ∈ replaceFirstP p f l, p x = false ∨ x = f a
  | [], a, ha, _, x, hx => by simp [replaceFirstP] at hx
  | y :: ys, a, ha, hle, x, hx => by
    by_cases hy : p y
    · have hay : a = y := by simpa [List.find?, hy] using ha.symm
      subst hay
      rw [replaceFirstP_cons, if_pos hy] at hx
      rcases List.mem_cons.mp hx with h1 | h1
      · exact Or.inr h1
      · have hz : ys.countP p = 0 := by
          rw [List.countP_cons] at hle
          simp only [hy, if_true] at hle
          omega
        rw [List.countP_eq_zero] at hz
        have := hz x h1
        exact Or.inl (by revert this; cases p x <;> simp)
    · have ha' : ys.find? p = some a := by
        simpa [List.find?, hy] using ha
      rw [replaceFirstP_cons, if_neg (by simp [hy])] at hx
      rcases List.mem_cons.mp hx with h1 | h1
      · subst h1
        exact Or.inl (by revert hy; cases p x <;> simp)
      · have hle' : ys.countP p ≤ 1 := by
          rw [List.countP_cons] at hle
          omega
        exact mem_replaceFirstP_cases p f ys a ha' hle' x h1

/-- `replaceFirstP` is invisible to a projection the replacement of the
found element preserves. -/
theorem map_replaceFirstP_of_find? (p : α → Bool) (f : α → α) (g : α → β) :
    ∀ (l : List α) (a : α), l.find? p = some a → g (f a) = g a →
      (replaceFirstP p f l).map g = l.map g
  | [], a, ha, _ => by simp at ha
  | y :: ys, a, ha, hg => by
    by_cases hy : p y
    · have hay : a = y := by simpa [List.find?, hy] using ha.symm
      subst hay
      simp [replaceFirstP, hy, hg]
    · have ha' : ys.find? p = some a := by
        simpa [List.find?, hy] using ha
      simp [replaceFirstP, hy, map_replaceFirstP_of_find? p f g ys a ha' hg]

/-- Nothing in a list satisfies `p` when `any p` is false. -/
theorem not_mem_of_any_eq_false (p : α → Bool) (l : List α)
    (h : l.any p = false) (x : α) (hpx : p x = true) : x ∉ l := by
  intro hx
  rw [List.any_eq_false] at h
  exact absurd hpx (by simpa using h x hx)

/-- A tuple matches `qrMatches` exactly when it is the literal tuple. -/
theorem qrMatches_iff (qid uid : String) (ty : RType) (e : QReaction) :
    qrMatches qid uid ty e = true ↔
      e = { questionId := qid, userId := uid, rtype := ty } := by
  cases e
  simp [qrMatches]

/-- A tuple matches `arMatches` exactly when it is the literal tuple. -/
theorem arMatches_iff (aid uid : String) (ty : RType) (e : AReaction) :
    arMatches aid uid ty e = true ↔
      e = { answerId := aid, userId := uid, rtype := ty } := by
  cases e
  simp [arMatches]

/-- When the reaction tuples are duplicate-free, the number of distinct
users reacting with one type on a question is the plain tuple count. -/
theorem distinctUsersQ_eq_countP (s : StoreShape) (qid : String) (ty : RType)
    (hnd : s.questionReactions.Nodup) :
    distinctUsersQ s qid ty =
      s.questionReactions.countP (fun e => e.questionId = qid ∧
        e.rtype = ty) := by
  unfold distinctUsersQ qReactUsers
  have hndf : (s.questionReactions.filter (fun e => e.questionId = qid ∧
      e.rtype = ty)).Nodup := hnd.filter _
  have hndu : ((s.questionReactions.filter (fun e => e.questionId = qid ∧
      e.rtype = ty)).map (fun e => e.userId)).Nodup := by
    refine List.Nodup.map_on ?_ hndf
    intro x hx y hy hxy
    have hrx := List.of_mem_filter hx
    have hry := List.of_mem_filter hy
    have hx1 : x.questionId = qid ∧ x.rtype = ty := by simpa using hrx
    have hy1 : y.questionId = qid ∧ y.rtype = ty := by simpa using hry
    cases x
    cases y
    simp_all
  rw [List.dedup_eq_self.mpr hndu, List.length_map,
    List.countP_eq_length_filter]

/-- When the reaction tuples are duplicate-free, the number of distinct
users reacting with one type on an answer is the plain tuple count. -/
theorem distinctUsersA_eq_countP (s : StoreShape) (aid : String) (ty : RType)
    (hnd : s.answerReactions.Nodup) :
    distinctUsersA s aid ty =
      s.answerReactions.countP (fun e => e.answerId = aid ∧
        e.rtype = ty) := by
  unfold distinctUsersA aReactUsers
  have hndf : (s.answerReactions.filter (fun e => e.answerId = aid ∧
      e.rtype = ty)).Nodup := hnd.filter _
  have hndu : ((s.answerReactions.filter (fun e => e.answerId = aid ∧
      e.rtype = ty)).map (fun e => e.userId)).Nodup := by
    refine List.Nodup.map_on ?_ hndf
    intro x hx y hy hxy
    have hrx := List.of_mem_filter hx
    have hry := List.of_mem_filter hy
    have hx1 : x.answerId = aid ∧ x.rtype = ty := by simpa using hrx
    have hy1 : y.answerId = aid ∧ y.rtype = ty := by simpa using hry
    cases x
    cases y
    simp_all
  rw [List.dedup_eq_self.mpr hndu, List.length_map,
    List.countP_eq_length_filter]

/-- At most one question holds an answer with a given id when the answer
ids across all questions are duplicate-free. -/
theorem countP_holdsAnswer_le_one (aid : String) :
    ∀ l : List Question,
      ((l.map (fun q => (q.answers.getD []).map (fun a => a.id))).flatten).Nodup →
      l.countP (fun q => (q.answers.getD []).any (fun a => a.id = aid)) ≤ 1
  | [], _ => by simp
  | q :: qs, hnd => by
    rw [List.map_cons, List.flatten_cons, List.nodup_append] at hnd
    obtain ⟨hq, hqs, hdisj⟩ := hnd
    rw [List.countP_cons]
    by_cases hpq : (q.answers.getD []).any (fun a => a.id = aid)
    · have hz : qs.countP (fun q => (q.answers.getD []).any
          (fun a => a.id = aid)) = 0 := by
        rw [List.countP_eq_zero]
        intro q2 hq2 hpq2
        have hpq2' : (q2.answers.getD []).any (fun a => a.id = aid) = true := by
          simpa using hpq2
        rw [List.any_eq_true] at hpq hpq2'
        obtain ⟨a1, ha1, hid1⟩ := hpq
        obtain ⟨a2, ha2, hid2⟩ := hpq2'
        have hmem1 : aid ∈ (q.answers.getD []).map (fun a => a.id) := by
          have hida : a1.id = aid := by simpa using hid1
          rw [← hida]
          exact List.mem_map_of_mem _ ha1
        have hmem2 : aid ∈ ((qs.map (fun q => (q.answers.getD []).map
            (fun a => a.id))).flatten) := by
          rw [List.mem_flatten]
          exact ⟨(q2.answers.getD []).map (fun a => a.id),
            List.mem_map_of_mem _ hq2,
            by
              have hida : a2.id = aid := by simpa using hid2
              rw [← hida]
              exact List.mem_map_of_mem _ ha2⟩
        exact hdisj hmem1 hmem2
      simp [hpq, hz]
    · have hrec := countP_holdsAnswer_le_one aid qs hqs
      have h0 : ((q.answers.getD []).any (fun a => a.id = aid)) = false := by
        revert hpq
        cases (q.answers.getD []).any (fun a => a.id = aid) <;> simp
      rw [h0]
      simpa using hrec

/-- Reading a counter other than the one just written. -/
theorem reactions_get_set_ne (r : Reactions) (ty ty' : RType) (v : Int)
    (h : ty' ≠ ty) : (Reactions.set r ty v).get ty' = r.get ty' := by
  cases ty <;> cases ty' <;> first | rfl | exact absurd rfl h

/-- One `addQuestionReaction` call preserves id well-formedness and the
reaction-uniqueness invariant. -/
theorem addQuestionReaction_preserves (qid : String) (ty : RType)
    (uid : String) (s : StoreShape) (hwf : WfIds s)
    (hinv : ReactionInv s) :
    WfIds (addQuestionReaction qid ty uid s).2 ∧
    ReactionInv (addQuestionReaction qid ty uid s).2 := by
  obtain ⟨hndq, hnda⟩ := hwf
  obtain ⟨hndqr, hndar, hqbound, habound⟩ := hinv
  cases hfind : s.questions.find? (fun q => q.id = qid) with
  | none =>
    simp only [addQuestionReaction, hfind]
    exact ⟨⟨hndq, hnda⟩, hndqr, hndar, hqbound, habound⟩
  | some target =>
    have hid : target.id = qid := by
      have := List.find?_some hfind
      simpa using this
    have htmem : target ∈ s.questions := List.mem_of_find?_eq_some hfind
    have hcle : s.questions.countP (fun q => q.id = qid) ≤ 1 :=
      countP_map_nodup_le_one (fun q => q.id) s.questions hndq qid
    by_cases hpr : s.questionReactions.any (qrMatches qid uid ty) = true
    · -- the tuple is present: it is erased and the counter decremented
      set T1 : Question := { target with
        reactions := some ((target.reactions.getD baseReactions).set ty
          (max 0 ((target.reactions.getD baseReactions).get ty - 1))) }
        with hT1
      have hT1id : T1.id = qid := by rw [hT1]; exact hid
      have hs' : (addQuestionReaction qid ty uid s).2 =
          { s with
            questions := replaceFirstP (fun q => q.id = qid) (fun _ => T1)
              s.questions,
            questionReactions := eraseFirstP (qrMatches qid uid ty)
              s.questionReactions } := by
        simp [addQuestionReaction, hfind, hpr, hT1]
      rw [hs']
      have hnd' : (eraseFirstP (qrMatches qid uid ty)
          s.questionReactions).Nodup :=
        List.Nodup.sublist (eraseFirstP_sublist _ _) hndqr
      have hcountm : (eraseFirstP (qrMatches qid uid ty)
            s.questionReactions).countP (qrMatches qid uid ty) + 1 =
          s.questionReactions.countP (qrMatches qid uid ty) :=
        countP_eraseFirstP_of_covers _ _ (fun _ h => h) _ hpr
      refine ⟨⟨?_, ?_⟩, hnd', hndar, ?_, ?_⟩
      · dsimp only
        rw [map_replaceFirstP_of_find? (fun q => q.id = qid) (fun _ => T1)
          (fun q => q.id) s.questions target hfind (by rw [hT1])]
        exact hndq
      · dsimp only
        rw [map_replaceFirstP_of_find? (fun q => q.id = qid) (fun _ => T1)
          (fun q => (q.answers.getD []).map (fun a => a.id)) s.questions
          target hfind (by rw [hT1])]
        exact hnda
      · intro q' hq' ty'
        dsimp only at hq'
        rw [distinctUsersQ_eq_countP _ _ _ hnd']
        dsimp only
        rcases mem_replaceFirstP_cases (fun q => q.id = qid) (fun _ => T1)
          s.questions target hfind hcle q' hq' with hpf | rfl
        · have hq'mem : q' ∈ s.questions := by
            rcases mem_replaceFirstP (fun q => q.id = qid) (fun _ => T1)
              s.questions q' hq' with h | ⟨a, hfa, rfl⟩
            · exact h
            · rw [hfa] at hfind
              injection hfind with ha
              subst ha
              rw [hT1id] at hpf
              simp at hpf
          have hne : q'.id ≠ qid := by simpa using hpf
          have hceq : (eraseFirstP (qrMatches qid uid ty)
                s.questionReactions).countP (fun e => e.questionId = q'.id ∧
                e.rtype = ty') =
              s.questionReactions.countP (fun e => e.questionId = q'.id ∧
                e.rtype = ty') := by
            refine countP_eraseFirstP_of_disjoint _ _ ?_ _
            intro e he
            rw [qrMatches_iff] at he
            subst he
            simp only [decide_eq_false_iff_not]
            rintro ⟨h1, _⟩
            exact hne h1.symm
          rw [hceq, ← distinctUsersQ_eq_countP s q'.id ty' hndqr]
          exact hqbound q' hq'mem ty'
        · rw [hT1id]
          have hbase := hqbound target htmem ty'
          rw [hid] at hbase
          rw [distinctUsersQ_eq_countP s qid ty' hndqr] at hbase
          by_cases hty : ty' = ty
          · subst hty
            have hcov : (eraseFirstP (qrMatches qid uid ty')
                  s.questionReactions).countP (fun e => e.questionId = qid ∧
                  e.rtype = ty') + 1 =
                s.questionReactions.countP (fun e => e.questionId = qid ∧
                  e.rtype = ty') := by
              refine countP_eraseFirstP_of_covers _ _ ?_ _ hpr
              intro e he
              rw [qrMatches_iff] at he
              subst he
              simp
            rw [hT1]
            simp only [Option.getD_some, reactions_get_set_self]
            rcases max_cases (0 : Int)
              ((target.reactions.getD baseReactions).get ty' - 1) with
              ⟨hm, _⟩ | ⟨hm, _⟩ <;> rw [hm] <;> omega
          · have hdis : (eraseFirstP (qrMatches qid uid ty)
                  s.questionReactions).countP (fun e => e.questionId = qid ∧
                  e.rtype = ty') =
                s.questionReactions.countP (fun e => e.questionId = qid ∧
                  e.rtype = ty') := by
              refine countP_eraseFirstP_of_disjoint _ _ ?_ _
              intro e he
              rw [qrMatches_iff] at he
              subst he
              simp only [decide_eq_false_iff_not]
              rintro ⟨_, h2⟩
              exact hty h2.symm
            rw [hdis]
            rw [hT1]
            simp only [Option.getD_some]
            rw [reactions_get_set_ne _ _ _ _ hty]
            exact hbase
      · intro q' hq' b hb ty'
        dsimp only at hq'
        rcases mem_replaceFirstP_cases (fun q => q.id = qid) (fun _ => T1)
          s.questions target hfind hcle q' hq' with hpf | rfl
        · have hq'mem : q' ∈ s.questions := by
            rcases mem_replaceFirstP (fun q => q.id = qid) (fun _ => T1)
              s.questions q' hq' with h | ⟨a, hfa, rfl⟩
            · exact h
            · rw [hfa] at hfind
              injection hfind with ha
              subst ha
              rw [hT1id] at hpf
              simp at hpf
          exact habound q' hq'mem b hb ty'
        · rw [hT1] at hb
          exact habound target htmem b hb ty'
    · -- the tuple is absent: it is appended and the counter incremented
      have hpr' : s.questionReactions.any (qrMatches qid uid ty) = false := by
        revert hpr
        cases s.questionReactions.any (qrMatches qid uid ty) <;> simp
      set T1 : Question := { target with
        reactions := some ((target.reactions.getD baseReactions).set ty
          ((target.reactions.getD baseReactions).get ty + 1)) } with hT1
      have hT1id : T1.id = qid := by rw [hT1]; exact hid
      have hs' : (addQuestionReaction qid ty uid s).2 =
          { s with
            questions := replaceFirstP (fun q => q.id = qid) (fun _ => T1)
              s.questions,
            questionReactions := s.questionReactions ++
              [{ questionId := qid, userId := uid, rtype := ty }] } := by
        simp [addQuestionReaction, hfind, hpr', hT1]
      rw [hs']
      have hnotmem : ({ questionId := qid, userId := uid, rtype := ty } :
          QReaction) ∉ s.questionReactions :=
        not_mem_of_any_eq_false _ _ hpr' _ (qrMatches_self qid uid ty)
      have hnd' : (s.questionReactions ++
          [({ questionId := qid, userId := uid, rtype := ty } :
            QReaction)]).Nodup := by
        rw [List.nodup_append]
        refine ⟨hndqr, List.nodup_singleton _, ?_⟩
        intro x hx hx1
        simp only [List.mem_singleton] at hx1
        subst hx1
        exact hnotmem hx
      refine ⟨⟨?_, ?_⟩, hnd', hndar, ?_, ?_⟩
      · dsimp only
        rw [map_replaceFirstP_of_find? (fun q => q.id = qid) (fun _ => T1)
          (fun q => q.id) s.questions target hfind (by rw [hT1])]
        exact hndq
      · dsimp only
        rw [map_replaceFirstP_of_find? (fun q => q.id = qid) (fun _ => T1)
          (fun q => (q.answers.getD []).map (fun a => a.id)) s.questions
          target hfind (by rw [hT1])]
        exact hnda
      · intro q' hq' ty'
        dsimp only at hq'
        rw [distinctUsersQ_eq_countP _ _ _ hnd']
        dsimp only
        rw [List.countP_append]
        rcases mem_replaceFirstP_cases (fun q => q.id = qid) (fun _ => T1)
          s.questions target hfind hcle q' hq' with hpf | rfl
        · have hq'mem : q' ∈ s.questions := by
            rcases mem_replaceFirstP (fun q => q.id = qid) (fun _ => T1)
              s.questions q' hq' with h | ⟨a, hfa, rfl⟩
            · exact h
            · rw [hfa] at hfind
              injection hfind with ha
              subst ha
              rw [hT1id] at hpf
              simp at hpf
          have hbase := hqbound q' hq'mem ty'
          rw [distinctUsersQ_eq_countP s q'.id ty' hndqr] at hbase
          have hle := hbase
          have : (List.countP (fun e => e.questionId = q'.id ∧ e.rtype = ty')
              [({ questionId := qid, userId := uid, rtype := ty } :
                QReaction)]) ≤ 1 := by
            simp [List.countP_cons]
            split <;> omega
          omega
        · rw [hT1id]
          have hbase := hqbound target htmem ty'
          rw [hid] at hbase
          rw [distinctUsersQ_eq_countP s qid ty' hndqr] at hbase
          rw [hT1]
          by_cases hty : ty' = ty
          · subst hty
            simp only [Option.getD_some, reactions_get_set_self]
            have hone : (List.countP (fun e => e.questionId = qid ∧
                e.rtype = ty')
                [({ questionId := qid, userId := uid, rtype := ty' } :
                  QReaction)]) = 1 := by simp
            omega
          · simp only [Option.getD_some]
            rw [reactions_get_set_ne _ _ _ _ hty]
            omega
      · intro q' hq' b hb ty'
        dsimp only at hq'
        rcases mem_replaceFirstP_cases (fun q => q.id = qid) (fun _ => T1)
          s.questions target hfind hcle q' hq' with hpf | rfl
        · have hq'mem : q' ∈ s.questions := by
            rcases mem_replaceFirstP (fun q => q.id = qid) (fun _ => T1)
              s.questions q' hq' with h | ⟨a, hfa, rfl⟩
            · exact h
            · rw [hfa] at hfind
              injection hfind with ha
              subst ha
              rw [hT1id] at hpf
              simp at hpf
          exact habound q' hq'mem b hb ty'
        · rw [hT1] at hb
          exact habound target htmem b hb ty'

/-- One `addAnswerReaction` call preserves id well-formedness and the
reaction-uniqueness invariant. -/
theorem addAnswerReaction_preserves (aid : String) (ty : RType)
    (uid : String) (s : StoreShape) (hwf : WfIds s)
    (hinv : ReactionInv s) :
    WfIds (addAnswerReaction aid ty uid s).2 ∧
    ReactionInv (addAnswerReaction aid ty uid s).2 := by
  obtain ⟨hndq, hnda⟩ := hwf
  obtain ⟨hndqr, hndar, hqbound, habound⟩ := hinv
  cases hfq : s.questions.find? (fun qq => (qq.answers.getD []).any
      (fun x => x.id = aid)) with
  | none =>
    simp only [addAnswerReaction, hfq]
    exact ⟨⟨hndq, hnda⟩, hndqr, hndar, hqbound, habound⟩
  | some q =>
    cases hfa : (q.answers.getD []).find? (fun x => x.id = aid) with
    | none =>
      simp only [addAnswerReaction, hfq, hfa]
      exact ⟨⟨hndq, hnda⟩, hndqr, hndar, hqbound, habound⟩
    | some a =>
      have haid : a.id = aid := by
        have := List.find?_some hfa
        simpa using this
      have hamem : a ∈ q.answers.getD [] := List.mem_of_find?_eq_some hfa
      have hqmem : q ∈ s.questions := List.mem_of_find?_eq_some hfq
      have hcleq : s.questions.countP (fun qq => (qq.answers.getD []).any
          (fun x => x.id = aid)) ≤ 1 :=
        countP_holdsAnswer_le_one aid s.questions hnda
      have hchunk : ((q.answers.getD []).map (fun x => x.id)).Nodup :=
        (List.nodup_flatten.mp hnda).1 _ (List.mem_map_of_mem _ hqmem)
      have hclea : (q.answers.getD []).countP (fun x => x.id = aid) ≤ 1 :=
        countP_map_nodup_le_one (fun x : Answer => x.id) (q.answers.getD [])
          hchunk aid
      by_cases hpr : s.answerReactions.any (arMatches aid uid ty) = true
      · -- the tuple is present: it is erased and the counter decremented
        set A1 : Answer := { a with
          reactions := some ((a.reactions.getD baseReactions).set ty
            (max 0 ((a.reactions.getD baseReactions).get ty - 1))) }
          with hA1
        have hA1id : A1.id = aid := by rw [hA1]; exact haid
        set Q1 : Question := { q with
          answers := some (replaceFirstP (fun x => x.id = aid)
            (fun _ => A1) (q.answers.getD [])) } with hQ1
        have hs' : (addAnswerReaction aid ty uid s).2 =
            { s with
              questions := replaceFirstP (fun qq => (qq.answers.getD []).any
                (fun x => x.id = aid)) (fun _ => Q1) s.questions,
              answerReactions := eraseFirstP (arMatches aid uid ty)
                s.answerReactions } := by
          simp [addAnswerReaction, hfq, hfa, hpr, hA1, hQ1]
        rw [hs']
        have hnd' : (eraseFirstP (arMatches aid uid ty)
            s.answerReactions).Nodup :=
          List.Nodup.sublist (eraseFirstP_sublist _ _) hndar
        have hQ1ids : (Q1.answers.getD []).map (fun x => x.id) =
            (q.answers.getD []).map (fun x => x.id) := by
          rw [hQ1]
          simp only [Option.getD_some]
          exact map_replaceFirstP_of_find? _ _ _ _ _ hfa (by rw [hA1])
        have hpqQ1 : ((Q1.answers.getD []).any
            (fun x => x.id = aid)) = true := by
          rw [hQ1]
          simp only [Option.getD_some]
          rw [List.any_eq_true]
          have hfA1 := find?_replaceFirstP_self (fun x => x.id = aid)
            (fun _ => A1) (q.answers.getD []) a hfa (by simp [hA1id, haid])
          exact ⟨A1, List.mem_of_find?_eq_some hfA1, by simp [hA1id, haid]⟩
        refine ⟨⟨?_, ?_⟩, hndqr, hnd', ?_, ?_⟩
        · dsimp only
          rw [map_replaceFirstP_of_find? _ (fun _ => Q1) (fun qq => qq.id)
            s.questions q hfq (by rw [hQ1])]
          exact hndq
        · dsimp only
          rw [map_replaceFirstP_of_find? _ (fun _ => Q1)
            (fun qq => (qq.answers.getD []).map (fun x => x.id))
            s.questions q hfq hQ1ids]
          exact hnda
        · intro q' hq' ty'
          dsimp only at hq'
          rcases mem_replaceFirstP_cases _ (fun _ => Q1) s.questions q hfq
            hcleq q' hq' with hpf | rfl
          · have hq'mem : q' ∈ s.questions := by
              rcases mem_replaceFirstP _ (fun _ => Q1) s.questions q' hq'
                with h | ⟨a0, hfa0, rfl⟩
              · exact h
              · rw [hfa0] at hfq
                injection hfq with ha0
                subst ha0
                rw [hpqQ1] at hpf
                simp at hpf
            exact hqbound q' hq'mem ty'
          · exact hqbound q hqmem ty'
        · intro q' hq' b hb ty'
          dsimp only at hq'
          rw [distinctUsersA_eq_countP _ _ _ hnd']
          dsimp only
          rcases mem_replaceFirstP_cases _ (fun _ => Q1) s.questions q hfq
            hcleq q' hq' with hpf | rfl
          · have hq'mem : q' ∈ s.questions := by
              rcases mem_replaceFirstP _ (fun _ => Q1) s.questions q' hq'
                with h | ⟨a0, hfa0, rfl⟩
              · exact h
              · rw [hfa0] at hfq
                injection hfq with ha0
                subst ha0
                rw [hpqQ1] at hpf
                simp at hpf
            have hbne : b.id ≠ aid := by
              rw [List.any_eq_false] at hpf
              simpa using hpf b hb
            have hceq : (eraseFirstP (arMatches aid uid ty)
                  s.answerReactions).countP (fun e => e.answerId = b.id ∧
                  e.rtype = ty') =
                s.answerReactions.countP (fun e => e.answerId = b.id ∧
                  e.rtype = ty') := by
              refine countP_eraseFirstP_of_disjoint _ _ ?_ _
              intro e he
              rw [arMatches_iff] at he
              subst he
              simp only [decide_eq_false_iff_not]
              rintro ⟨h1, _⟩
              exact hbne h1.symm
            rw [hceq, ← distinctUsersA_eq_countP s b.id ty' hndar]
            exact habound q' hq'mem b hb ty'
          · have hb' : b ∈ replaceFirstP (fun x => x.id = aid)
                (fun _ => A1) (q.answers.getD []) := by
              rw [hQ1] at hb
              simpa using hb
            rcases mem_replaceFirstP_cases _ (fun _ => A1)
              (q.answers.getD []) a hfa hclea b hb' with hbf | rfl
            · have hbmem : b ∈ q.answers.getD [] := by
                rcases mem_replaceFirstP _ (fun _ => A1)
                  (q.answers.getD []) b hb' with h | ⟨a0, hfa0, rfl⟩
                · exact h
                · rw [hfa0] at hfa
                  injection hfa with ha0
                  subst ha0
                  rw [hA1id] at hbf
                  simp at hbf
              have hbne : b.id ≠ aid := by simpa using hbf
              have hceq : (eraseFirstP (arMatches aid uid ty)
                    s.answerReactions).countP (fun e => e.answerId = b.id ∧
                    e.rtype = ty') =
                  s.answerReactions.countP (fun e => e.answerId = b.id ∧
                    e.rtype = ty') := by
                refine countP_eraseFirstP_of_disjoint _ _ ?_ _
                intro e he
                rw [arMatches_iff] at he
                subst he
                simp only [decide_eq_false_iff_not]
                rintro ⟨h1, _⟩
                exact hbne h1.symm
              rw [hceq, ← distinctUsersA_eq_countP s b.id ty' hndar]
              exact habound q hqmem b hbmem ty'
            · rw [hA1id]
              have hbase := habound q hqmem a hamem ty'
              rw [haid] at hbase
              rw [distinctUsersA_eq_countP s aid ty' hndar] at hbase
              by_cases hty : ty' = ty
              · subst hty
                have hcov : (eraseFirstP (arMatches aid uid ty')
                      s.answerReactions).countP (fun e => e.answerId = aid ∧
                      e.rtype = ty') + 1 =
                    s.answerReactions.countP (fun e => e.answerId = aid ∧
                      e.rtype = ty') := by
                  refine countP_eraseFirstP_of_covers _ _ ?_ _ hpr
                  intro e he
                  rw [arMatches_iff] at he
                  subst he
                  simp
                rw [hA1]
                simp only [Option.getD_some, reactions_get_set_self]
                rcases max_cases (0 : Int)
                  ((a.reactions.getD baseReactions).get ty' - 1) with
                  ⟨hm, _⟩ | ⟨hm, _⟩ <;> rw [hm] <;> omega
              · have hdis : (eraseFirstP (arMatches aid uid ty)
                      s.answerReactions).countP (fun e => e.answerId = aid ∧
                      e.rtype = ty') =
                    s.answerReactions.countP (fun e => e.answerId = aid ∧
                      e.rtype = ty') := by
                  refine countP_eraseFirstP_of_disjoint _ _ ?_ _
                  intro e he
                  rw [arMatches_iff] at he
                  subst he
                  simp only [decide_eq_false_iff_not]
                  rintro ⟨_, h2⟩
                  exact hty h2.symm
                rw [hdis]
                rw [hA1]
                simp only [Option.getD_some]
                rw [reactions_get_set_ne _ _ _ _ hty]
                exact hbase
      · -- the tuple is absent: it is appended and the counter incremented
        have hpr' : s.answerReactions.any (arMatches aid uid ty) = false := by
          revert hpr
          cases s.answerReactions.any (arMatches aid uid ty) <;> simp
        set A1 : Answer := { a with
          reactions := some ((a.reactions.getD baseReactions).set ty
            ((a.reactions.getD baseReactions).get ty + 1)) } with hA1
        have hA1id : A1.id = aid := by rw [hA1]; exact haid
        set Q1 : Question := { q with
          answers := some (replaceFirstP (fun x => x.id = aid)
            (fun _ => A1) (q.answers.getD [])) } with hQ1
        have hs' : (addAnswerReaction aid ty uid s).2 =
            { s with
              questions := replaceFirstP (fun qq => (qq.answers.getD []).any
                (fun x => x.id = aid)) (fun _ => Q1) s.questions,
              answerReactions := s.answerReactions ++
                [{ answerId := aid, userId := uid, rtype := ty }] } := by
          simp [addAnswerReaction, hfq, hfa, hpr', hA1, hQ1]
        rw [hs']
        have hnotmem : ({ answerId := aid, userId := uid, rtype := ty } :
            AReaction) ∉ s.answerReactions :=
          not_mem_of_any_eq_false _ _ hpr'
            { answerId := aid, userId := uid, rtype := ty }
            (by rw [arMatches_iff])
        have hnd' : (s.answerReactions ++
            [({ answerId := aid, userId := uid, rtype := ty } :
              AReaction)]).Nodup := by
          rw [List.nodup_append]
          refine ⟨hndar, List.nodup_singleton _, ?_⟩
          intro x hx hx1
          simp only [List.mem_singleton] at hx1
          subst hx1
          exact hnotmem hx
        have hQ1ids : (Q1.answers.getD []).map (fun x => x.id) =
            (q.answers.getD []).map (fun x => x.id) := by
          rw [hQ1]
          simp only [Option.getD_some]
          exact map_replaceFirstP_of_find? _ _ _ _ _ hfa (by rw [hA1])
        have hpqQ1 : ((Q1.answers.getD []).any
            (fun x => x.id = aid)) = true := by
          rw [hQ1]
          simp only [Option.getD_some]
          rw [List.any_eq_true]
          have hfA1 := find?_replaceFirstP_self (fun x => x.id = aid)
            (fun _ => A1) (q.answers.getD []) a hfa (by simp [hA1id, haid])
          exact ⟨A1, List.mem_of_find?_eq_some hfA1, by simp [hA1id, haid]⟩
        refine ⟨⟨?_, ?_⟩, hndqr, hnd', ?_, ?_⟩
        · dsimp only
          rw [map_replaceFirstP_of_find? _ (fun _ => Q1) (fun qq => qq.id)
            s.questions q hfq (by rw [hQ1])]
          exact hndq
        · dsimp only
          rw [map_replaceFirstP_of_find? _ (fun _ => Q1)
            (fun qq => (qq.answers.getD []).map (fun x => x.id))
            s.questions q hfq hQ1ids]
          exact hnda
        · intro q' hq' ty'
          dsimp only at hq'
          rcases mem_replaceFirstP_cases _ (fun _ => Q1) s.questions q hfq
            hcleq q' hq' with hpf | rfl
          · have hq'mem : q' ∈ s.questions := by
              rcases mem_replaceFirstP _ (fun _ => Q1) s.questions q' hq'
                with h | ⟨a0, hfa0, rfl⟩
              · exact h
              · rw [hfa0] at hfq
                injection hfq with ha0
                subst ha0
                rw [hpqQ1] at hpf
                simp at hpf
            exact hqbound q' hq'mem ty'
          · exact hqbound q hqmem ty'
        · intro q' hq' b hb ty'
          dsimp only at hq'
          rw [distinctUsersA_eq_countP _ _ _ hnd']
          dsimp only
          rw [List.countP_append]
          rcases mem_replaceFirstP_cases _ (fun _ => Q1) s.questions q hfq
            hcleq q' hq' with hpf | rfl
          · have hq'mem : q' ∈ s.questions := by
              rcases mem_replaceFirstP _ (fun _ => Q1) s.questions q' hq'
                with h | ⟨a0, hfa0, rfl⟩
              · exact h
              · rw [hfa0] at hfq
                injection hfq with ha0
                subst ha0
                rw [hpqQ1] at hpf
                simp at hpf
            have hbase := habound q' hq'mem b hb ty'
            rw [distinctUsersA_eq_countP s b.id ty' hndar] at hbase
            have hsing : (List.countP (fun e => e.answerId = b.id ∧
                e.rtype = ty')
                [({ answerId := aid, userId := uid, rtype := ty } :
                  AReaction)]) ≤ 1 := by
              simp [List.countP_cons]
              split <;> omega
            omega
          · have hb' : b ∈ replaceFirstP (fun x => x.id = aid)
                (fun _ => A1) (q.answers.getD []) := by
              rw [hQ1] at hb
              simpa using hb
            rcases mem_replaceFirstP_cases _ (fun _ => A1)
              (q.answers.getD []) a hfa hclea b hb' with hbf | rfl
            · have hbmem : b ∈ q.answers.getD [] := by
                rcases mem_replaceFirstP _ (fun _ => A1)
                  (q.answers.getD []) b hb' with h | ⟨a0, hfa0, rfl⟩
                · exact h
                · rw [hfa0] at hfa
                  injection hfa with ha0
                  subst ha0
                  rw [hA1id] at hbf
                  simp at hbf
              have hbase := habound q hqmem b hbmem ty'
              rw [distinctUsersA_eq_countP s b.id ty' hndar] at hbase
              have hsing : (List.countP (fun e => e.answerId = b.id ∧
                  e.rtype = ty')
                  [({ answerId := aid, userId := uid, rtype := ty } :
                    AReaction)]) ≤ 1 := by
                simp [List.countP_cons]
                split <;> omega
              omega
            · rw [hA1id]
              have hbase := habound q hqmem a hamem ty'
              rw [haid] at hbase
              rw [distinctUsersA_eq_countP s aid ty' hndar] at hbase
              rw [hA1]
              by_cases hty : ty' = ty
              · subst hty
                simp only [Option.getD_some, reactions_get_set_self]
                have hone : (List.countP (fun e => e.answerId = aid ∧
                    e.rtype = ty')
                    [({ answerId := aid, userId := uid, rtype := ty' } :
                      AReaction)]) = 1 := by simp
                omega
              · simp only [Option.getD_some]
                rw [reactions_get_set_ne _ _ _ _ hty]
                have hzero : (List.countP (fun e => e.answerId = aid ∧
                    e.rtype = ty')
                    [({ answerId := aid, userId := uid, rtype := ty } :
                      AReaction)]) = 0 := by
                  have hne : (fun e : AReaction =>
                      decide (e.answerId = aid ∧ e.rtype = ty'))
                      { answerId := aid, userId := uid, rtype := ty } =
                      false := by
                    simp only [decide_eq_false_iff_not]
                    rintro ⟨_, h2⟩
                    exact hty h2.symm
                  simp [List.countP_cons, hne]
                  exact fun h => hty h.symm
                omega

/-- Claim C2: every sequence of `addQuestionReaction` / `addAnswerReaction`
calls preserves the reaction-uniqueness invariant — no duplicate
`(targetId, userId, type)` tuple in either reaction collection, and every
per-type counter bounded by the number of distinct users who reacted with
that type on that target — together with the data model's id
well-formedness (unique question ids, globally unique answer ids). -/
theorem reaction_uniqueness_invariant (s : StoreShape) (ops : List ReactOp)
    (hwf : WfIds s) (hinv : ReactionInv s) :
    ReactionInv (applyReactOps ops s) ∧ WfIds (applyReactOps ops s) := by
  induction ops generalizing s with
  | nil => exact ⟨hinv, hwf⟩
  | cons op rest ih =>
    have hstep : WfIds (applyReactOp s op) ∧
        ReactionInv (applyReactOp s op) := by
      cases op with
      | question qid ty uid =>
        exact addQuestionReaction_preserves qid ty uid s hwf hinv
      | answer aid ty uid =>
        exact addAnswerReaction_preserves aid ty uid s hwf hinv
    exact ih (applyReactOp s op) hstep.1 hstep.2

/-- Witness for C2: a toggle-on by a new user, a toggle-off of an existing
answer reaction, and a toggle-on of the question all keep the invariant. -/
theorem reaction_uniqueness_invariant_witness :
    ReactionInv (applyReactOps
      [ReactOp.question "q1" RType.like "u5",
       ReactOp.answer "a1" RType.thanks "u3",
       ReactOp.question "q1" RType.like "u2"] cascadeStore) ∧
    WfIds (applyReactOps
      [ReactOp.question "q1" RType.like "u5",
       ReactOp.answer "a1" RType.thanks "u3",
       ReactOp.question "q1" RType.like "u2"] cascadeStore) :=
  reaction_uniqueness_invariant cascadeStore
    [ReactOp.question "q1" RType.like "u5",
     ReactOp.answer "a1" RType.thanks "u3",
     ReactOp.question "q1" RType.like "u2"]
    ⟨by decide, by decide⟩ ⟨by decide, by decide, by decide, by decide⟩
